import Mathlib

/-!
# photoBoothVideoViewer: the timeline state machine of `src/ofApp.cpp`

A shallow embedding of the globals and functions of `src/ofApp.cpp`.

* `double`/`float` values are exact rationals (`ℚ`).
* `int` values are `Int`; the two places where the source computes with a
  different width (`3 - length()` in `getNextPhotoPath`, the products in
  `onAppResize`) carry their wrap-around explicitly.
* The openFrameworks collaborators are an explicit environment `Env` (what the
  video player, the camera and the window report at a call) and an explicit
  effect log `State.log` plus a model of the output directory `State.files`.
-/

namespace PhotoBooth

/-- Pixel buffers are opaque to the controller; a natural number names one. -/
abbrev Pixels := Nat

/-- The "Configurable Values" block at the top of `ofApp.cpp`. -/
structure Config where
  secondsBetweenSecretPhotosTaken : ℚ
  secondsToShowSecretPhotos : ℚ
  secondsBetweenSecretPhotosAndFirstPhotoBoothPhoto : ℚ
  secondsBetweenPhotoBoothPhotos : ℚ
  numPhotosToTakeInPhotoBooth : Int
  flashDecay : ℚ

/-- The values the source ships with. -/
def shipped : Config where
  secondsBetweenSecretPhotosTaken := 8
  secondsToShowSecretPhotos := 10
  secondsBetweenSecretPhotosAndFirstPhotoBoothPhoto := 5
  secondsBetweenPhotoBoothPhotos := 2
  numPhotosToTakeInPhotoBooth := 5
  flashDecay := 7 / 100

/-- What the external collaborators report during one call of `update` or `draw`:
`myPlayer.getDuration()`, `myPlayer.getPosition()`, `myPlayer.isPlaying()` and
`videoGrabber.getPixels()`. -/
structure Env where
  duration : ℚ
  position : ℚ
  isPlaying : Bool
  grabberPixels : Pixels

/-- Observable effects on the collaborators, in the order the source issues them. -/
inductive Event where
  | saveImage (px : Pixels) (path : String)
  | loadImage (path : String)
  | playSound
  | drawCurrentImage (px : Pixels) (x y w h : Int)
  | drawOverlay (x y w h : Int)
  | drawGrabber (px : Pixels) (x y w h : Int)
  | drawPlayer (x y w h : Int)
  | drawFlash (alpha : ℚ) (x y w h : Int)
  deriving DecidableEq

/-- The mutable globals of `ofApp.cpp`, the output directory and the effect log. -/
structure State where
  videoX : Int
  videoY : Int
  videoWidth : Int
  videoHeight : Int
  numTakenPhotosInBooth : Int
  displaySecretPhotosTime : ℚ
  photoBoothStartTime : ℚ
  displayTimePerSecretPhoto : ℚ
  shouldTakePhoto : Bool
  shouldDisplayPhotos : Bool
  shouldDisplayPhotoBooth : Bool
  currentPhoto : Pixels
  currentImage : Pixels
  flash : ℚ
  photoNumber : Int
  numberOfPhotos : Int
  totalNumberOfPhotos : Int
  lastPhotoTime : ℚ
  files : List (String × Pixels)
  log : List Event

/-- `getTime()`. -/
def getTime (e : Env) : ℚ := e.duration * e.position

/-- Reduction of an integer to the range of a 32-bit `int` (two's complement), as done
when a wider value is narrowed to `int` and when an `int` product wraps. -/
def toInt32 (x : Int) : Int := (x + 2 ^ 31) % 2 ^ 32 - 2 ^ 31

/-- `std::to_string(int)`: decimal digits, with a leading minus sign when negative. -/
def to_string : Int → String
  | Int.ofNat n => Nat.repr n
  | Int.negSucc n => "-" ++ Nat.repr (n + 1)

/-- The loop `while (numZeroes > 0) { s = "0" + s; numZeroes--; }`, which runs
`numZeroes` times when `numZeroes` is positive and not at all otherwise. -/
def padZeroes : Nat → String → String
  | 0, s => s
  | k + 1, s => padZeroes k ("0" ++ s)

def basePhotoPath : String := "output/photo"

/-- The string `getNextPhotoPath` builds when `photoNumber = n`. `length()` is a
`size_t`, so `3 - length()` is computed modulo `2^64` and then narrowed to `int`. -/
def photoPath (n : Int) : String :=
  let photoNumAsString := to_string n
  let numZeroes : Int := toInt32 (((3 : Int) - (photoNumAsString.length : Int)) % 2 ^ 64)
  basePhotoPath ++ padZeroes numZeroes.toNat photoNumAsString ++ ".jpg"

/-- `getNextPhotoPath()`: returns the path for the current counter and increments it. -/
def getNextPhotoPath (s : State) : String × State :=
  (photoPath s.photoNumber, { s with photoNumber := s.photoNumber + 1 })

/-- `ofSaveImage(px, path)`: the file is (over)written and the call is logged. -/
def ofSaveImage (px : Pixels) (path : String) (s : State) : State :=
  { s with files := (path, px) :: s.files, log := s.log ++ [Event.saveImage px path] }

/-- `ofLoadImage(currentPhoto, path)`: `currentPhoto` receives the file's content;
when the file does not exist the buffer is left as it was. -/
def ofLoadImage (path : String) (s : State) : State :=
  { s with
    currentPhoto := (s.files.lookup path).getD s.currentPhoto
    log := s.log ++ [Event.loadImage path] }

/-- `shouldDisplayNextPhoto()`. -/
def shouldDisplayNextPhoto (e : Env) (s : State) : Bool × State :=
  let now := getTime e
  let secondsSinceLastPhoto := now - s.lastPhotoTime
  if secondsSinceLastPhoto > s.displayTimePerSecretPhoto then
    (true, { s with lastPhotoTime := now })
  else
    (false, s)

/-- `onAppResize()`, for the screen size the window system reports. The products
are `int` products (wrapping), the divisions truncate. -/
def onAppResize (screenWidth screenHeight : Int) (s : State) : State :=
  let vidW : Int := 16
  let vidH : Int := 9
  let x := toInt32 (screenWidth * vidH)
  let y := toInt32 (screenHeight * vidW)
  if x < y then
    let videoWidth := screenWidth
    let videoHeight := toInt32 (Int.tdiv videoWidth vidW * vidH)
    { s with
      videoX := 0
      videoWidth := videoWidth
      videoHeight := videoHeight
      videoY := Int.tdiv screenHeight 2 - Int.tdiv videoHeight 2 }
  else
    let videoHeight := screenHeight
    let videoWidth := toInt32 (Int.tdiv videoHeight vidH * vidW)
    { s with
      videoY := 0
      videoHeight := videoHeight
      videoWidth := videoWidth
      videoX := Int.tdiv screenWidth 2 - Int.tdiv videoWidth 2 }

/-- `setupVideo()`; `duration` is `myPlayer.getDuration()` of the loaded video. -/
def setupVideo (c : Config) (duration : ℚ) (s : State) : State :=
  let photoBoothStartTime :=
    duration - ((c.numPhotosToTakeInPhotoBooth : ℚ) * c.secondsBetweenPhotoBoothPhotos)
      - c.secondsBetweenSecretPhotosAndFirstPhotoBoothPhoto
  { s with
    photoBoothStartTime := photoBoothStartTime
    displaySecretPhotosTime := photoBoothStartTime - c.secondsToShowSecretPhotos }

/-- The globals as static initialisation leaves them: the counters are `0`, and
`lastPhotoTime = getTime()` is taken from a player that has no video loaded,
whose duration and position are both `0`. `files` is the content of the output
directory at start. -/
def globals (files : List (String × Pixels)) : State where
  videoX := 0
  videoY := 0
  videoWidth := 0
  videoHeight := 0
  numTakenPhotosInBooth := 0
  displaySecretPhotosTime := 0
  photoBoothStartTime := 0
  displayTimePerSecretPhoto := 0
  shouldTakePhoto := false
  shouldDisplayPhotos := false
  shouldDisplayPhotoBooth := false
  currentPhoto := 0
  currentImage := 0
  flash := 0
  photoNumber := 0
  numberOfPhotos := 0
  totalNumberOfPhotos := 0
  lastPhotoTime := getTime ⟨0, 0, false, 0⟩
  files := files
  log := []

/-- `ofApp::setup()`. -/
def setup (c : Config) (duration : ℚ) (screenWidth screenHeight : Int) (s : State) : State :=
  let s := setupVideo c duration s
  let s := onAppResize screenWidth screenHeight s
  { s with
    numTakenPhotosInBooth := 0
    flash := 0
    shouldTakePhoto := false
    shouldDisplayPhotos := false
    shouldDisplayPhotoBooth := false }

/-- `ofApp::update()`. -/
def update (c : Config) (e : Env) (s : State) : State :=
  if s.shouldDisplayPhotos then
    if !s.shouldDisplayPhotoBooth then
      if getTime e > s.photoBoothStartTime then
        { s with
          shouldDisplayPhotoBooth := true
          photoNumber := s.totalNumberOfPhotos
          photoBoothStartTime := getTime e }
      else
        let r := shouldDisplayNextPhoto e s
        if r.1 then
          let p := getNextPhotoPath r.2
          let s := ofLoadImage p.1 p.2
          let s := { s with currentImage := s.currentPhoto }
          { s with lastPhotoTime := getTime e }
        else r.2
    else s
  else
    let secondsSinceStart := getTime e
    let secondsSinceLastPhoto := getTime e - s.lastPhotoTime
    if secondsSinceStart > s.displaySecretPhotosTime ∧ secondsSinceStart < s.photoBoothStartTime then
      let s := { s with shouldDisplayPhotos := true, numberOfPhotos := s.photoNumber + 1 }
      let s := { s with
        displayTimePerSecretPhoto := (1 * c.secondsToShowSecretPhotos) / (s.numberOfPhotos : ℚ) }
      let s := { s with totalNumberOfPhotos := s.photoNumber }
      let s := { s with photoNumber := 0 }
      let p := getNextPhotoPath s
      let s := ofLoadImage p.1 p.2
      let s := { s with currentImage := s.currentPhoto }
      { s with lastPhotoTime := getTime e }
    else if secondsSinceLastPhoto > c.secondsBetweenSecretPhotosTaken then
      { s with lastPhotoTime := getTime e, shouldTakePhoto := true }
    else s

/-- `takePhoto()`. -/
def takePhoto (e : Env) (s : State) : State :=
  let s := { s with currentPhoto := e.grabberPixels }
  let p := getNextPhotoPath s
  let s := ofSaveImage s.currentPhoto p.1 p.2
  let s := { s with currentImage := s.currentPhoto }
  let s := { s with numTakenPhotosInBooth := s.numTakenPhotosInBooth + 1 }
  let s := { s with flash := 1 }
  { s with log := s.log ++ [Event.playSound] }

/-- `drawPhotoBooth()`. -/
def drawPhotoBooth (c : Config) (e : Env) (s : State) : State :=
  let secondsSincePhotoBoothStart := getTime e - s.photoBoothStartTime
  if secondsSincePhotoBoothStart > c.secondsBetweenSecretPhotosAndFirstPhotoBoothPhoto ∧
      s.numTakenPhotosInBooth < c.numPhotosToTakeInPhotoBooth then
    let now := getTime e
    let s := if now - s.lastPhotoTime > c.secondsBetweenPhotoBoothPhotos then
        { takePhoto e s with lastPhotoTime := now }
      else s
    let s := { s with log := s.log ++
      [Event.drawCurrentImage s.currentImage s.videoX s.videoY s.videoWidth s.videoHeight,
       Event.drawOverlay s.videoX s.videoY s.videoWidth s.videoHeight] }
    if (0 : ℚ) < s.flash then
      let s := { s with log := s.log ++
        [Event.drawFlash (255 * s.flash) s.videoX s.videoY s.videoWidth s.videoHeight] }
      { s with flash := s.flash - c.flashDecay }
    else s
  else
    if e.isPlaying then
      let s := { s with log := s.log ++
        [Event.drawGrabber e.grabberPixels s.videoX s.videoY s.videoWidth s.videoHeight] }
      let p := getNextPhotoPath s
      let s := ofSaveImage e.grabberPixels p.1 p.2
      { s with log := s.log ++
        [Event.drawOverlay s.videoX s.videoY s.videoWidth s.videoHeight] }
    else s

/-- `ofApp::draw()`. -/
def draw (c : Config) (e : Env) (s : State) : State :=
  let s := if s.shouldTakePhoto then
      let p := getNextPhotoPath s
      let s := ofSaveImage e.grabberPixels p.1 p.2
      { s with shouldTakePhoto := false }
    else s
  if s.shouldDisplayPhotoBooth then
    drawPhotoBooth c e s
  else if s.numTakenPhotosInBooth = 0 then
    if s.shouldDisplayPhotos then
      { s with log := s.log ++
        [Event.drawCurrentImage s.currentImage s.videoX s.videoY s.videoWidth s.videoHeight] }
    else
      { s with log := s.log ++
        [Event.drawPlayer s.videoX s.videoY s.videoWidth s.videoHeight] }
  else s

/-- One call of the application loop. -/
inductive Call where
  | update (e : Env)
  | draw (e : Env)

/-- The timeline value a call observes. -/
def Call.time : Call → ℚ
  | Call.update e => getTime e
  | Call.draw e => getTime e

def step (c : Config) (s : State) : Call → State
  | Call.update e => update c e s
  | Call.draw e => draw c e s

/-- Any sequence of `update` and `draw` calls. -/
def exec (c : Config) (s : State) (calls : List Call) : State :=
  calls.foldl (step c) s

/-- One frame of the application loop: `update` and then `draw`. -/
def frame (c : Config) (s : State) (f : Env × Env) : State :=
  draw c f.2 (update c f.1 s)

/-- A run of frames. -/
def run (c : Config) (s : State) (fs : List (Env × Env)) : State :=
  fs.foldl (frame c) s

/-- The state in which the loop starts: static initialisation followed by `setup()`. -/
def start (c : Config) (duration : ℚ) (screenWidth screenHeight : Int)
    (files : List (String × Pixels)) : State :=
  setup c duration screenWidth screenHeight (globals files)

/-- The paths handed to `ofSaveImage`, in order. -/
def savedPaths : List Event → List String
  | [] => []
  | Event.saveImage _ p :: l => p :: savedPaths l
  | _ :: l => savedPaths l

/-- The paths handed to `ofLoadImage`, in order. -/
def loadedPaths : List Event → List String
  | [] => []
  | Event.loadImage p :: l => p :: loadedPaths l
  | _ :: l => loadedPaths l

/-- How often the camera sound was played. -/
def soundCount : List Event → Nat
  | [] => 0
  | Event.playSound :: l => soundCount l + 1
  | _ :: l => soundCount l

/-- An environment of a 60 second video observed at timeline value `t`. -/
def at60 (t : ℚ) : Env := ⟨60, t / 60, true, 0⟩

/-- The number a string of decimal digits denotes (leading zeroes allowed). -/
def decimalValue (cs : List Char) : Nat :=
  cs.foldl (fun a ch => 10 * a + (ch.toNat - 48)) 0

/-- A list of paths is the sequence of the first file names, without gap or repeat. -/
def Sequential (l : List String) : Prop :=
  l = (List.range l.length).map (fun i : Nat => photoPath (i : Int))

/-- The number of frames written so far. -/
def writeCount (s : State) : Nat := (savedPaths s.log).length

/-- What holds between two frames of the loop: no capture is pending, the writes so far
form the sequence 0, 1, 2, ..., and the counter that the next write will use (the shared
counter, or its snapshot `totalNumberOfPhotos` while the slideshow reads with the shared
counter) equals the number of writes. -/
def FrameInv (s : State) : Prop :=
  s.shouldTakePhoto = false ∧
  Sequential (savedPaths s.log) ∧
  (s.shouldDisplayPhotoBooth = true → s.shouldDisplayPhotos = true) ∧
  (if s.shouldDisplayPhotos = true ∧ s.shouldDisplayPhotoBooth = false
    then s.totalNumberOfPhotos else s.photoNumber) = (writeCount s : Int)

/-- What holds between `update` and `draw` of one frame: as `FrameInv`, but a capture
may be pending, and then only during Playback. -/
def MidFrameInv (s : State) : Prop :=
  (s.shouldTakePhoto = true → s.shouldDisplayPhotos = false) ∧
  Sequential (savedPaths s.log) ∧
  (s.shouldDisplayPhotoBooth = true → s.shouldDisplayPhotos = true) ∧
  (if s.shouldDisplayPhotos = true ∧ s.shouldDisplayPhotoBooth = false
    then s.totalNumberOfPhotos else s.photoNumber) = (writeCount s : Int)

/-- The first statement of `ofApp::draw()`: a pending secret capture is written. -/
def savePending (e : Env) (s : State) : State :=
  if s.shouldTakePhoto then
    { s with
      shouldTakePhoto := false
      photoNumber := s.photoNumber + 1
      files := (photoPath s.photoNumber, e.grabberPixels) :: s.files
      log := s.log ++ [Event.saveImage e.grabberPixels (photoPath s.photoNumber)] }
  else s

/-- The timeline values of the calls in which `takePhoto` ran (the calls that played the
camera sound), in order. -/
def takePhotoTimes (c : Config) : State → List Call → List ℚ
  | _, [] => []
  | s, call :: rest =>
    if soundCount (step c s call).log > soundCount s.log then
      call.time :: takePhotoTimes c (step c s call) rest
    else
      takePhotoTimes c (step c s call) rest

/-- What one call does to the booth counter, the sound and `lastPhotoTime`. -/
def StepFacts (c : Config) (t : ℚ) (s s' : State) : Prop :=
  (s'.shouldDisplayPhotoBooth = true → s'.shouldDisplayPhotos = true) ∧
  (s.shouldDisplayPhotoBooth = true → s'.shouldDisplayPhotoBooth = true) ∧
  ((s'.numTakenPhotosInBooth = s.numTakenPhotosInBooth ∧
      soundCount s'.log = soundCount s.log ∧
      (s.shouldDisplayPhotoBooth = true → s'.lastPhotoTime = s.lastPhotoTime)) ∨
   (s'.numTakenPhotosInBooth = s.numTakenPhotosInBooth + 1 ∧
      soundCount s'.log = soundCount s.log + 1 ∧
      s.numTakenPhotosInBooth < c.numPhotosToTakeInPhotoBooth ∧
      s'.shouldDisplayPhotoBooth = true ∧
      s'.lastPhotoTime = t ∧
      t - s.lastPhotoTime > c.secondsBetweenPhotoBoothPhotos))

/-- A frame of a 60 second video in which `update` and `draw` both observe timeline
value `t`. -/
def frameAt (t : ℚ) : Env × Env := (at60 t, at60 t)

/-- The two calls of a frame at timeline value `t` of a 60 second video. -/
def callsAt (t : ℚ) : List Call := [Call.update (at60 t), Call.draw (at60 t)]

/-- Four Playback frames, 8.5 seconds apart: each one requests and writes a secret photo. -/
def playbackFrames : List (Env × Env) :=
  [frameAt (17 / 2), frameAt 17, frameAt (51 / 2), frameAt 34]

/-- Five Slideshow frames, 2.1 seconds apart, all inside the window `(35, 45)`. -/
def slideshowFrames : List (Env × Env) :=
  [frameAt (71 / 2), frameAt (376 / 10), frameAt (397 / 10), frameAt (418 / 10),
   frameAt (439 / 10)]

/-- Calls that enter the slideshow at 36, the photobooth at 46, and reach the capture
phase at 52, where the first `draw` takes the first booth photo. -/
def boothCalls : List Call :=
  callsAt 36 ++ callsAt 46 ++ callsAt 52

/-- `boothCalls` followed by `n` more frames, a tenth of a second apart. -/
def flashCallsUpTo (n : Nat) : List Call :=
  boothCalls ++ ((List.range n).map (fun k : Nat => callsAt (52 + ((k : ℚ) + 1) / 10))).flatten

/-- `boothCalls` followed by fourteen more frames, the last one at 53.4, before the second
booth photo is due. -/
def flashCalls : List Call := flashCallsUpTo 14

/-- The bounds of the flash intensity. -/
def FlashInv (c : Config) (s : State) : Prop :=
  -c.flashDecay < s.flash ∧ s.flash ≤ 1

/-- Frames of a 60 second video sampled every half second, from 0 to 35. -/
def halfSecondFrames : List (Env × Env) :=
  (List.range 71).map (fun i : Nat => frameAt ((i : ℚ) * (1 / 2)))

/-- Whether a call leaves the machine in Playback when the window is `(lo, hi)`: an
`update` does when its sample is not strictly inside the window, a `draw` always does. -/
def outsideWindow (lo hi : ℚ) : Call → Bool
  | Call.update e => decide (getTime e ≤ lo ∨ getTime e ≥ hi)
  | Call.draw _ => true

/-- Frames that sample a 60 second video at 10, 20, 30 and 35, and then at 45 and 55: no
sample is strictly between 35 and 45. -/
def jumpingCalls : List Call :=
  callsAt 10 ++ callsAt 20 ++ callsAt 30 ++ callsAt 35 ++ callsAt 45 ++ callsAt 55

/-- The calls of a run of frames. -/
def frameCalls : List (Env × Env) → List Call
  | [] => []
  | f :: fs => Call.update f.1 :: Call.draw f.2 :: frameCalls fs

/-- What holds between two frames once the slideshow was entered with `N` frames written,
where `P` is the `photoBoothStartTime` computed at start: no capture is pending, the loads
so far are those of the indices 0, 1, 2, ..., at least one and at most `N + 1`; and
while the photobooth has not begun the shared counter is the number of loads, each image
is shown for `secondsToShowSecretPhotos / (N + 1)`, and the last load happened inside the
window, late enough for the loads before it. -/
def SlideInv (c : Config) (P : ℚ) (N : Int) (s : State) : Prop :=
  s.shouldTakePhoto = false ∧ s.shouldDisplayPhotos = true ∧
  Sequential (loadedPaths s.log) ∧
  1 ≤ (loadedPaths s.log).length ∧
  ((loadedPaths s.log).length : Int) ≤ N + 1 ∧
  (s.shouldDisplayPhotoBooth = false →
    s.photoNumber = ((loadedPaths s.log).length : Int) ∧
    s.photoBoothStartTime = P ∧
    s.displayTimePerSecretPhoto = c.secondsToShowSecretPhotos / ((N + 1 : Int) : ℚ) ∧
    (P - c.secondsToShowSecretPhotos) + (((loadedPaths s.log).length : ℚ) - 1) *
      (c.secondsToShowSecretPhotos / ((N + 1 : Int) : ℚ)) < s.lastPhotoTime ∧
    s.lastPhotoTime ≤ P)

/-! ## File names -/

theorem digitChar_toNat (k : Nat) (h : k < 10) : (Nat.digitChar k).toNat - 48 = k := by
  interval_cases k <;> rfl

theorem foldl_toDigitsCore (fuel : Nat) : ∀ (n : Nat) (ds : List Char), n < fuel →
    (Nat.toDigitsCore 10 fuel n ds).foldl (fun a ch => 10 * a + (ch.toNat - 48)) 0
      = ds.foldl (fun a ch => 10 * a + (ch.toNat - 48)) n := by
  induction fuel with
  | zero => intro n ds h; omega
  | succ fuel ih =>
    intro n ds h
    have hd : (Nat.digitChar (n % 10)).toNat - 48 = n % 10 :=
      digitChar_toNat _ (Nat.mod_lt _ (by decide))
    simp only [Nat.toDigitsCore]
    split_ifs with h0
    · simp only [List.foldl_cons, hd]
      congr 1
      omega
    · rw [ih (n / 10) _ (by omega)]
      simp only [List.foldl_cons, hd]
      congr 1
      omega

theorem decimalValue_repr (n : Nat) : decimalValue (Nat.repr n).data = n := by
  have h := foldl_toDigitsCore (n + 1) n [] (Nat.lt_succ_self n)
  simpa [decimalValue, Nat.repr, Nat.toDigits, List.asString] using h

theorem padZeroes_data (k : Nat) : ∀ s : String,
    (padZeroes k s).data = List.replicate k '0' ++ s.data := by
  induction k with
  | zero => intro s; simp [padZeroes]
  | succ k ih =>
    intro s
    rw [padZeroes, ih, String.data_append, List.replicate_succ']
    simp

theorem decimalValue_replicate_zero (k : Nat) (cs : List Char) :
    decimalValue (List.replicate k '0' ++ cs) = decimalValue cs := by
  induction k with
  | zero => simp
  | succ k ih =>
    have h0 : ('0' : Char).toNat - 48 = 0 := by decide
    rw [List.replicate_succ, List.cons_append]
    unfold decimalValue at ih ⊢
    rw [List.foldl_cons, h0]
    exact ih

theorem photoPath_data (n : Int) : ∃ k : Nat,
    (photoPath n).data =
      basePhotoPath.data ++ ((List.replicate k '0' ++ (to_string n).data) ++ ".jpg".data) := by
  refine ⟨(toInt32 (((3 : Int) - ((to_string n).length : Int)) % 2 ^ 64)).toNat, ?_⟩
  unfold photoPath
  simp only [String.data_append, padZeroes_data, List.append_assoc]

theorem photoPath_injOn_nat (m n : Nat) (h : photoPath (m : Int) = photoPath (n : Int)) :
    m = n := by
  obtain ⟨k, hk⟩ := photoPath_data (m : Int)
  obtain ⟨l, hl⟩ := photoPath_data (n : Int)
  have h1 := congrArg String.data h
  rw [hk, hl] at h1
  have h2 := List.append_cancel_left h1
  have h3 := congrArg decimalValue (List.append_cancel_right h2)
  rw [decimalValue_replicate_zero, decimalValue_replicate_zero] at h3
  have e1 : to_string (m : Int) = Nat.repr m := rfl
  have e2 : to_string (n : Int) = Nat.repr n := rfl
  rwa [e1, e2, decimalValue_repr, decimalValue_repr] at h3

theorem photoPath_lt_1000 : ∀ n : Nat, n < 1000 →
    photoPath (n : Int) = "output/photo" ++
      String.mk [Nat.digitChar (n / 100), Nat.digitChar (n / 10 % 10), Nat.digitChar (n % 10)]
      ++ ".jpg" := by
  decide!

theorem three_digits_lt_1000 : ∀ n : Nat, n < 1000 →
    (∀ ch ∈ [Nat.digitChar (n / 100), Nat.digitChar (n / 10 % 10), Nat.digitChar (n % 10)],
      ch.isDigit = true) ∧
    decimalValue [Nat.digitChar (n / 100), Nat.digitChar (n / 10 % 10), Nat.digitChar (n % 10)]
      = n := by
  decide!

/-! ## Start state -/

theorem start_eq (c : Config) (duration : ℚ) (w h : Int) (files : List (String × Pixels)) :
    ∃ x y vw vh, start c duration w h files =
      { globals files with
        videoX := x, videoY := y, videoWidth := vw, videoHeight := vh
        photoBoothStartTime := duration
          - ((c.numPhotosToTakeInPhotoBooth : ℚ) * c.secondsBetweenPhotoBoothPhotos)
          - c.secondsBetweenSecretPhotosAndFirstPhotoBoothPhoto
        displaySecretPhotosTime := duration
          - ((c.numPhotosToTakeInPhotoBooth : ℚ) * c.secondsBetweenPhotoBoothPhotos)
          - c.secondsBetweenSecretPhotosAndFirstPhotoBoothPhoto - c.secondsToShowSecretPhotos } := by
  unfold start setup onAppResize setupVideo
  by_cases hxy : toInt32 (w * 9) < toInt32 (h * 16)
  · simp only [hxy, if_true]; exact ⟨_, _, _, _, rfl⟩
  · simp only [hxy, if_false]; exact ⟨_, _, _, _, rfl⟩

/-! ## Claims about `setupVideo`, `getNextPhotoPath` and `takePhoto` -/

/-- C5: `setupVideo` sets `photoBoothStartTime` to the video duration minus the time
the booth photos need minus the warm-up, and `displaySecretPhotosTime` to that minus the
slideshow duration; for the shipped constants and a 60 second video these are 45 and 35. -/
theorem setupVideo_boundaries (c : Config) (D : ℚ) (s : State) :
    (setupVideo c D s).photoBoothStartTime =
        D - (c.numPhotosToTakeInPhotoBooth : ℚ) * c.secondsBetweenPhotoBoothPhotos
          - c.secondsBetweenSecretPhotosAndFirstPhotoBoothPhoto ∧
    (setupVideo c D s).displaySecretPhotosTime =
        (setupVideo c D s).photoBoothStartTime - c.secondsToShowSecretPhotos ∧
    (setupVideo shipped 60 s).photoBoothStartTime = 45 ∧
    (setupVideo shipped 60 s).displaySecretPhotosTime = 35 := by
  refine ⟨rfl, rfl, ?_, ?_⟩ <;> simp only [setupVideo, shipped] <;> norm_num

/-- C8: for a counter value `n` between 0 and 999, `getNextPhotoPath` returns
`output/photo`, then exactly three decimal digits whose value is `n`, then `.jpg`, and
leaves the counter at `n + 1`; the first call of a run returns `output/photo000.jpg`. -/
theorem getNextPhotoPath_three_digits (s : State) (n : Nat)
    (hs : s.photoNumber = (n : Int)) (hn : n ≤ 999) :
    (∃ ds : List Char, ds.length = 3 ∧ (∀ ch ∈ ds, ch.isDigit = true) ∧ decimalValue ds = n ∧
      (getNextPhotoPath s).1 = "output/photo" ++ String.mk ds ++ ".jpg") ∧
    (getNextPhotoPath s).2.photoNumber = (n : Int) + 1 ∧
    ∀ (c : Config) (D : ℚ) (w h : Int) (files : List (String × Pixels)),
      (getNextPhotoPath (start c D w h files)).1 = "output/photo000.jpg" := by
  have hlt : n < 1000 := by omega
  refine ⟨⟨[Nat.digitChar (n / 100), Nat.digitChar (n / 10 % 10), Nat.digitChar (n % 10)],
    rfl, (three_digits_lt_1000 n hlt).1, (three_digits_lt_1000 n hlt).2, ?_⟩, ?_, ?_⟩
  · simp only [getNextPhotoPath, hs]
    exact photoPath_lt_1000 n hlt
  · simp only [getNextPhotoPath, hs]
  · intro c D w h files
    obtain ⟨x, y, vw, vh, e⟩ := start_eq c D w h files
    rw [e]
    rfl

theorem getNextPhotoPath_three_digits_witness :
    (∃ ds : List Char, ds.length = 3 ∧ (∀ ch ∈ ds, ch.isDigit = true) ∧ decimalValue ds = 42 ∧
      (getNextPhotoPath { globals [] with photoNumber := 42 }).1
        = "output/photo" ++ String.mk ds ++ ".jpg") ∧
    (getNextPhotoPath { globals [] with photoNumber := 42 }).2.photoNumber = (42 : Int) + 1 ∧
    ∀ (c : Config) (D : ℚ) (w h : Int) (files : List (String × Pixels)),
      (getNextPhotoPath (start c D w h files)).1 = "output/photo000.jpg" :=
  getNextPhotoPath_three_digits { globals [] with photoNumber := 42 } 42 rfl (by decide)

/-- C9: the path `getNextPhotoPath` returns is injective in the counter: two states whose
non-negative counters differ get different paths (also from 1000 on, where the number is
no longer padded). -/
theorem getNextPhotoPath_injective (s₁ s₂ : State)
    (h₁ : 0 ≤ s₁.photoNumber) (h₂ : 0 ≤ s₂.photoNumber)
    (hne : s₁.photoNumber ≠ s₂.photoNumber) :
    (getNextPhotoPath s₁).1 ≠ (getNextPhotoPath s₂).1 := by
  intro h
  apply hne
  obtain ⟨m, hm⟩ := Int.eq_ofNat_of_zero_le h₁
  obtain ⟨n, hn⟩ := Int.eq_ofNat_of_zero_le h₂
  simp only [getNextPhotoPath, hm, hn] at h
  rw [hm, hn, photoPath_injOn_nat m n h]

theorem getNextPhotoPath_injective_witness :
    (getNextPhotoPath { globals [] with photoNumber := 7 }).1 ≠
      (getNextPhotoPath { globals [] with photoNumber := 1007 }).1 :=
  getNextPhotoPath_injective { globals [] with photoNumber := 7 }
    { globals [] with photoNumber := 1007 } (by decide) (by decide) (by decide)

/-- C10: `takePhoto` saves the camera frame under the path of the current counter (one
`getNextPhotoPath` call, the counter grows by one), makes that frame the displayed image,
sets `flash` to 1, counts one more booth photo, plays the sound once, and leaves the phase
flags, `shouldTakePhoto`, `photoBoothStartTime`, `totalNumberOfPhotos` and `lastPhotoTime`
as they were. -/
theorem takePhoto_effect (e : Env) (s : State) :
    (takePhoto e s).photoNumber = s.photoNumber + 1 ∧
    (takePhoto e s).files = (photoPath s.photoNumber, e.grabberPixels) :: s.files ∧
    (takePhoto e s).log =
      s.log ++ [Event.saveImage e.grabberPixels (photoPath s.photoNumber), Event.playSound] ∧
    (takePhoto e s).currentPhoto = e.grabberPixels ∧
    (takePhoto e s).currentImage = e.grabberPixels ∧
    (takePhoto e s).flash = 1 ∧
    (takePhoto e s).numTakenPhotosInBooth = s.numTakenPhotosInBooth + 1 ∧
    (takePhoto e s).shouldDisplayPhotos = s.shouldDisplayPhotos ∧
    (takePhoto e s).shouldDisplayPhotoBooth = s.shouldDisplayPhotoBooth ∧
    (takePhoto e s).shouldTakePhoto = s.shouldTakePhoto ∧
    (takePhoto e s).photoBoothStartTime = s.photoBoothStartTime ∧
    (takePhoto e s).totalNumberOfPhotos = s.totalNumberOfPhotos ∧
    (takePhoto e s).lastPhotoTime = s.lastPhotoTime := by
  simp [takePhoto, getNextPhotoPath, ofSaveImage]

/-! ## The effect log -/

@[simp]
theorem savedPaths_append (l₁ l₂ : List Event) :
    savedPaths (l₁ ++ l₂) = savedPaths l₁ ++ savedPaths l₂ := by
  induction l₁ with
  | nil => rfl
  | cons a l ih => cases a <;> simp [savedPaths, ih]

@[simp]
theorem loadedPaths_append (l₁ l₂ : List Event) :
    loadedPaths (l₁ ++ l₂) = loadedPaths l₁ ++ loadedPaths l₂ := by
  induction l₁ with
  | nil => rfl
  | cons a l ih => cases a <;> simp [loadedPaths, ih]

@[simp]
theorem soundCount_append (l₁ l₂ : List Event) :
    soundCount (l₁ ++ l₂) = soundCount l₁ + soundCount l₂ := by
  induction l₁ with
  | nil => simp [soundCount]
  | cons a l ih =>
    cases a
    all_goals simp [soundCount, ih]
    omega

theorem Sequential.snoc {l : List String} (h : Sequential l) :
    Sequential (l ++ [photoPath (l.length : Int)]) := by
  unfold Sequential at h ⊢
  rw [List.length_append, List.length_singleton, List.range_succ, List.map_append, ← h]
  rfl

/-! ## The branches of `update` and `draw` -/

/-- The branches of `ofApp::update()`, each with the state it leaves. -/
theorem update_cases (c : Config) (e : Env) (s : State) (P : State → Prop)
    (booth : s.shouldDisplayPhotos = true → s.shouldDisplayPhotoBooth = true → P s)
    (toBooth : s.shouldDisplayPhotos = true → s.shouldDisplayPhotoBooth = false →
      getTime e > s.photoBoothStartTime →
      P { s with
          shouldDisplayPhotoBooth := true
          photoNumber := s.totalNumberOfPhotos
          photoBoothStartTime := getTime e })
    (advance : s.shouldDisplayPhotos = true → s.shouldDisplayPhotoBooth = false →
      ¬ getTime e > s.photoBoothStartTime →
      getTime e - s.lastPhotoTime > s.displayTimePerSecretPhoto →
      P { s with
          lastPhotoTime := getTime e
          photoNumber := s.photoNumber + 1
          currentPhoto := (s.files.lookup (photoPath s.photoNumber)).getD s.currentPhoto
          currentImage := (s.files.lookup (photoPath s.photoNumber)).getD s.currentPhoto
          log := s.log ++ [Event.loadImage (photoPath s.photoNumber)] })
    (hold : s.shouldDisplayPhotos = true → s.shouldDisplayPhotoBooth = false →
      ¬ getTime e > s.photoBoothStartTime →
      ¬ getTime e - s.lastPhotoTime > s.displayTimePerSecretPhoto → P s)
    (enter : s.shouldDisplayPhotos = false →
      getTime e > s.displaySecretPhotosTime → getTime e < s.photoBoothStartTime →
      P { s with
          shouldDisplayPhotos := true
          numberOfPhotos := s.photoNumber + 1
          displayTimePerSecretPhoto :=
            (1 * c.secondsToShowSecretPhotos) / ((s.photoNumber + 1 : Int) : ℚ)
          totalNumberOfPhotos := s.photoNumber
          photoNumber := 0 + 1
          currentPhoto := (s.files.lookup (photoPath 0)).getD s.currentPhoto
          currentImage := (s.files.lookup (photoPath 0)).getD s.currentPhoto
          lastPhotoTime := getTime e
          log := s.log ++ [Event.loadImage (photoPath 0)] })
    (capture : s.shouldDisplayPhotos = false →
      ¬ (getTime e > s.displaySecretPhotosTime ∧ getTime e < s.photoBoothStartTime) →
      getTime e - s.lastPhotoTime > c.secondsBetweenSecretPhotosTaken →
      P { s with lastPhotoTime := getTime e, shouldTakePhoto := true })
    (idle : s.shouldDisplayPhotos = false →
      ¬ (getTime e > s.displaySecretPhotosTime ∧ getTime e < s.photoBoothStartTime) →
      ¬ getTime e - s.lastPhotoTime > c.secondsBetweenSecretPhotosTaken → P s) :
    P (update c e s) := by
  unfold update
  by_cases hp : s.shouldDisplayPhotos = true
  · rw [if_pos hp]
    by_cases hb : s.shouldDisplayPhotoBooth = true
    · have hb' : ¬ ((!s.shouldDisplayPhotoBooth) = true) := by simp [hb]
      rw [if_neg hb']
      exact booth hp hb
    · have hb' : (!s.shouldDisplayPhotoBooth) = true := by simpa using hb
      have hb2 : s.shouldDisplayPhotoBooth = false := by simpa using hb
      rw [if_pos hb']
      by_cases ht : getTime e > s.photoBoothStartTime
      · rw [if_pos ht]; exact toBooth hp hb2 ht
      · rw [if_neg ht]
        unfold shouldDisplayNextPhoto
        by_cases hn : getTime e - s.lastPhotoTime > s.displayTimePerSecretPhoto
        · simp only [hn, if_true]; exact advance hp hb2 ht hn
        · simp only [hn, if_false, Bool.false_eq_true]; exact hold hp hb2 ht hn
  · rw [if_neg hp]
    have hp2 : s.shouldDisplayPhotos = false := by simpa using hp
    by_cases hw : getTime e > s.displaySecretPhotosTime ∧ getTime e < s.photoBoothStartTime
    · simp only [hw, and_self, if_true]
      exact enter hp2 hw.1 hw.2
    · simp only [hw, if_false]
      by_cases hc : getTime e - s.lastPhotoTime > c.secondsBetweenSecretPhotosTaken
      · rw [if_pos hc]; exact capture hp2 hw hc
      · rw [if_neg hc]; exact idle hp2 hw hc

theorem draw_pending (c : Config) (e : Env) (s : State) (h : s.shouldTakePhoto = true) :
    draw c e s = draw c e
      { s with
        shouldTakePhoto := false
        photoNumber := s.photoNumber + 1
        files := (photoPath s.photoNumber, e.grabberPixels) :: s.files
        log := s.log ++ [Event.saveImage e.grabberPixels (photoPath s.photoNumber)] } := by
  unfold draw
  simp only [h, if_true, Bool.false_eq_true, if_false, getNextPhotoPath, ofSaveImage]

/-- The branches of `ofApp::draw()` when no secret capture is pending, each with the
state it leaves. -/
theorem draw_cases (c : Config) (e : Env) (s : State) (P : State → Prop)
    (pending : s.shouldTakePhoto = false)
    (shoot : s.shouldDisplayPhotoBooth = true →
      getTime e - s.photoBoothStartTime > c.secondsBetweenSecretPhotosAndFirstPhotoBoothPhoto →
      s.numTakenPhotosInBooth < c.numPhotosToTakeInPhotoBooth →
      getTime e - s.lastPhotoTime > c.secondsBetweenPhotoBoothPhotos →
      P { s with
          currentPhoto := e.grabberPixels
          currentImage := e.grabberPixels
          photoNumber := s.photoNumber + 1
          files := (photoPath s.photoNumber, e.grabberPixels) :: s.files
          numTakenPhotosInBooth := s.numTakenPhotosInBooth + 1
          flash := 1 - c.flashDecay
          lastPhotoTime := getTime e
          log := s.log ++ [Event.saveImage e.grabberPixels (photoPath s.photoNumber)]
            ++ [Event.playSound]
            ++ [Event.drawCurrentImage e.grabberPixels s.videoX s.videoY s.videoWidth s.videoHeight,
                Event.drawOverlay s.videoX s.videoY s.videoWidth s.videoHeight]
            ++ [Event.drawFlash (255 * 1) s.videoX s.videoY s.videoWidth s.videoHeight] })
    (decay : s.shouldDisplayPhotoBooth = true →
      getTime e - s.photoBoothStartTime > c.secondsBetweenSecretPhotosAndFirstPhotoBoothPhoto →
      s.numTakenPhotosInBooth < c.numPhotosToTakeInPhotoBooth →
      ¬ getTime e - s.lastPhotoTime > c.secondsBetweenPhotoBoothPhotos →
      0 < s.flash →
      P { s with
          flash := s.flash - c.flashDecay
          log := s.log
            ++ [Event.drawCurrentImage s.currentImage s.videoX s.videoY s.videoWidth s.videoHeight,
                Event.drawOverlay s.videoX s.videoY s.videoWidth s.videoHeight]
            ++ [Event.drawFlash (255 * s.flash) s.videoX s.videoY s.videoWidth s.videoHeight] })
    (still : s.shouldDisplayPhotoBooth = true →
      getTime e - s.photoBoothStartTime > c.secondsBetweenSecretPhotosAndFirstPhotoBoothPhoto →
      s.numTakenPhotosInBooth < c.numPhotosToTakeInPhotoBooth →
      ¬ getTime e - s.lastPhotoTime > c.secondsBetweenPhotoBoothPhotos →
      ¬ 0 < s.flash →
      P { s with
          log := s.log
            ++ [Event.drawCurrentImage s.currentImage s.videoX s.videoY s.videoWidth s.videoHeight,
                Event.drawOverlay s.videoX s.videoY s.videoWidth s.videoHeight] })
    (live : s.shouldDisplayPhotoBooth = true →
      ¬ (getTime e - s.photoBoothStartTime > c.secondsBetweenSecretPhotosAndFirstPhotoBoothPhoto ∧
        s.numTakenPhotosInBooth < c.numPhotosToTakeInPhotoBooth) →
      e.isPlaying = true →
      P { s with
          photoNumber := s.photoNumber + 1
          files := (photoPath s.photoNumber, e.grabberPixels) :: s.files
          log := s.log
            ++ [Event.drawGrabber e.grabberPixels s.videoX s.videoY s.videoWidth s.videoHeight]
            ++ [Event.saveImage e.grabberPixels (photoPath s.photoNumber)]
            ++ [Event.drawOverlay s.videoX s.videoY s.videoWidth s.videoHeight] })
    (frozen : s.shouldDisplayPhotoBooth = true →
      ¬ (getTime e - s.photoBoothStartTime > c.secondsBetweenSecretPhotosAndFirstPhotoBoothPhoto ∧
        s.numTakenPhotosInBooth < c.numPhotosToTakeInPhotoBooth) →
      e.isPlaying = false → P s)
    (slide : s.shouldDisplayPhotoBooth = false → s.numTakenPhotosInBooth = 0 →
      s.shouldDisplayPhotos = true →
      P { s with
          log := s.log
            ++ [Event.drawCurrentImage s.currentImage s.videoX s.videoY s.videoWidth s.videoHeight] })
    (video : s.shouldDisplayPhotoBooth = false → s.numTakenPhotosInBooth = 0 →
      s.shouldDisplayPhotos = false →
      P { s with
          log := s.log ++ [Event.drawPlayer s.videoX s.videoY s.videoWidth s.videoHeight] })
    (blank : s.shouldDisplayPhotoBooth = false → ¬ s.numTakenPhotosInBooth = 0 → P s) :
    P (draw c e s) := by
  unfold draw
  have hpend : ¬ s.shouldTakePhoto = true := by simp [pending]
  rw [if_neg hpend]
  by_cases hb : s.shouldDisplayPhotoBooth = true
  · rw [if_pos hb]
    unfold drawPhotoBooth
    by_cases hc : getTime e - s.photoBoothStartTime
          > c.secondsBetweenSecretPhotosAndFirstPhotoBoothPhoto ∧
        s.numTakenPhotosInBooth < c.numPhotosToTakeInPhotoBooth
    · simp only [hc, and_self, if_true]
      by_cases hs : getTime e - s.lastPhotoTime > c.secondsBetweenPhotoBoothPhotos
      · have h1 : (0 : ℚ) < 1 := by norm_num
        simp only [hs, if_true, takePhoto, getNextPhotoPath, ofSaveImage, h1]
        exact shoot hb hc.1 hc.2 hs
      · simp only [hs, if_false]
        by_cases hf : 0 < s.flash
        · simp only [hf, if_true]; exact decay hb hc.1 hc.2 hs hf
        · simp only [hf, if_false]; exact still hb hc.1 hc.2 hs hf
    · simp only [hc, if_false]
      by_cases hply : e.isPlaying = true
      · simp only [hply, if_true, getNextPhotoPath, ofSaveImage]
        exact live hb hc hply
      · simp only [hply, if_false, Bool.false_eq_true]
        exact frozen hb hc (by simpa using hply)
  · rw [if_neg hb]
    have hb2 : s.shouldDisplayPhotoBooth = false := by simpa using hb
    by_cases hn : s.numTakenPhotosInBooth = 0
    · rw [if_pos hn]
      by_cases hp : s.shouldDisplayPhotos = true
      · rw [if_pos hp]; exact slide hb2 hn hp
      · rw [if_neg hp]; exact video hb2 hn (by simpa using hp)
    · rw [if_neg hn]; exact blank hb2 hn

/-! ## Writes are sequential (C1) -/

theorem update_midFrameInv (c : Config) (e : Env) (s : State) (h : FrameInv s) :
    MidFrameInv (update c e s) := by
  obtain ⟨h1, h2, h3, h4⟩ := h
  unfold writeCount at h4
  refine update_cases c e s MidFrameInv ?_ ?_ ?_ ?_ ?_ ?_ ?_ <;> intros <;>
    simp_all [MidFrameInv, writeCount, savedPaths]

theorem draw_frameInv_of_not_pending (c : Config) (e : Env) (s : State)
    (h1 : s.shouldTakePhoto = false) (h2 : Sequential (savedPaths s.log))
    (h3 : s.shouldDisplayPhotoBooth = true → s.shouldDisplayPhotos = true)
    (h4 : (if s.shouldDisplayPhotos = true ∧ s.shouldDisplayPhotoBooth = false
      then s.totalNumberOfPhotos else s.photoNumber) = ((savedPaths s.log).length : Int)) :
    FrameInv (draw c e s) := by
  have hsn := Sequential.snoc h2
  refine draw_cases c e s FrameInv h1 ?_ ?_ ?_ ?_ ?_ ?_ ?_ ?_ <;> intros <;>
    simp_all [FrameInv, writeCount, savedPaths]

theorem draw_frameInv (c : Config) (e : Env) (s : State) (h : MidFrameInv s) :
    FrameInv (draw c e s) := by
  obtain ⟨h1, h2, h3, h4⟩ := h
  unfold writeCount at h4
  by_cases hp : s.shouldTakePhoto = true
  · have hph := h1 hp
    have hb : s.shouldDisplayPhotoBooth = false := by
      cases hb : s.shouldDisplayPhotoBooth
      · rfl
      · rw [h3 hb] at hph; exact absurd hph (by decide)
    rw [draw_pending c e s hp]
    simp only [hph, hb, Bool.false_eq_true, false_and, if_false] at h4
    apply draw_frameInv_of_not_pending
    · rfl
    · simp only [savedPaths_append, savedPaths, h4]
      exact Sequential.snoc h2
    · simp [hb]
    · simp [hph, savedPaths, h4]
  · exact draw_frameInv_of_not_pending c e s (by simpa using hp) h2 h3 h4

theorem frame_frameInv (c : Config) (s : State) (f : Env × Env) (h : FrameInv s) :
    FrameInv (frame c s f) :=
  draw_frameInv c f.2 _ (update_midFrameInv c f.1 s h)

theorem run_frameInv (c : Config) (fs : List (Env × Env)) :
    ∀ s : State, FrameInv s → FrameInv (run c s fs) := by
  induction fs with
  | nil => intro s h; exact h
  | cons f fs ih => intro s h; exact ih _ (frame_frameInv c s f h)

theorem start_frameInv (c : Config) (D : ℚ) (w h : Int) (files : List (String × Pixels)) :
    FrameInv (start c D w h files) := by
  obtain ⟨x, y, vw, vh, e⟩ := start_eq c D w h files
  rw [e]
  simp [FrameInv, writeCount, globals, savedPaths, Sequential]

/-- C1: in every run of frames (`update`, then `draw`) from the start state, the paths
written are those of the indices 0, 1, 2, ... in order: each write uses the index after
the previous one, through the slideshow (which rewinds the shared counter for reading)
and into the photobooth, and no file is written twice. -/
theorem writes_sequential (c : Config) (D : ℚ) (w h : Int) (files : List (String × Pixels))
    (fs : List (Env × Env)) :
    savedPaths (run c (start c D w h files) fs).log =
      (List.range (savedPaths (run c (start c D w h files) fs).log).length).map
        (fun i : Nat => photoPath (i : Int)) ∧
    (savedPaths (run c (start c D w h files) fs).log).Nodup := by
  have hseq : Sequential (savedPaths (run c (start c D w h files) fs).log) :=
    (run_frameInv c fs _ (start_frameInv c D w h files)).2.1
  refine ⟨hseq, ?_⟩
  rw [hseq]
  exact (List.nodup_range _).map (fun m n hmn => photoPath_injOn_nat m n hmn)

/-! ## The booth counter (C4) -/

theorem draw_savePending (c : Config) (e : Env) (s : State) :
    draw c e s = draw c e (savePending e s) := by
  unfold savePending
  by_cases h : s.shouldTakePhoto = true
  · rw [if_pos h]; exact draw_pending c e s h
  · rw [if_neg h]

theorem savePending_fields (e : Env) (s : State) :
    (savePending e s).shouldTakePhoto = false ∧
    (savePending e s).shouldDisplayPhotos = s.shouldDisplayPhotos ∧
    (savePending e s).shouldDisplayPhotoBooth = s.shouldDisplayPhotoBooth ∧
    (savePending e s).numTakenPhotosInBooth = s.numTakenPhotosInBooth ∧
    (savePending e s).flash = s.flash ∧
    (savePending e s).lastPhotoTime = s.lastPhotoTime ∧
    (savePending e s).photoBoothStartTime = s.photoBoothStartTime ∧
    soundCount (savePending e s).log = soundCount s.log := by
  unfold savePending
  by_cases h : s.shouldTakePhoto = true
  · rw [if_pos h]; simp [soundCount]
  · rw [if_neg h]; simp [h]

theorem update_stepFacts (c : Config) (e : Env) (s : State)
    (h : s.shouldDisplayPhotoBooth = true → s.shouldDisplayPhotos = true) :
    StepFacts c (getTime e) s (update c e s) := by
  refine update_cases c e s (StepFacts c (getTime e) s) ?_ ?_ ?_ ?_ ?_ ?_ ?_ <;> intros <;>
    simp_all [StepFacts, soundCount]

theorem draw_stepFacts (c : Config) (e : Env) (s : State)
    (h : s.shouldDisplayPhotoBooth = true → s.shouldDisplayPhotos = true) :
    StepFacts c (getTime e) s (draw c e s) := by
  obtain ⟨p1, p2, p3, p4, p5, p6, p7, p8⟩ := savePending_fields e s
  rw [draw_savePending]
  refine draw_cases c e (savePending e s) (StepFacts c (getTime e) s) p1 ?_ ?_ ?_ ?_ ?_ ?_ ?_ ?_
    <;> intros <;> simp_all [StepFacts, soundCount]

theorem step_stepFacts (c : Config) (s : State) (call : Call)
    (h : s.shouldDisplayPhotoBooth = true → s.shouldDisplayPhotos = true) :
    StepFacts c call.time s (step c s call) := by
  cases call with
  | update e => exact update_stepFacts c e s h
  | draw e => exact draw_stepFacts c e s h

theorem start_fields (c : Config) (D : ℚ) (w h : Int) (files : List (String × Pixels)) :
    (start c D w h files).shouldDisplayPhotos = false ∧
    (start c D w h files).shouldDisplayPhotoBooth = false ∧
    (start c D w h files).shouldTakePhoto = false ∧
    (start c D w h files).numTakenPhotosInBooth = 0 ∧
    (start c D w h files).flash = 0 ∧
    (start c D w h files).lastPhotoTime = 0 ∧
    (start c D w h files).photoNumber = 0 ∧
    (start c D w h files).log = [] := by
  obtain ⟨x, y, vw, vh, e⟩ := start_eq c D w h files
  rw [e]
  simp [globals, getTime]

theorem exec_booth_imp (c : Config) (calls : List Call) : ∀ s : State,
    (s.shouldDisplayPhotoBooth = true → s.shouldDisplayPhotos = true) →
    ((exec c s calls).shouldDisplayPhotoBooth = true →
      (exec c s calls).shouldDisplayPhotos = true) := by
  induction calls with
  | nil => intro s h; exact h
  | cons call calls ih => intro s h; exact ih _ (step_stepFacts c s call h).1

theorem exec_append (c : Config) (s : State) (l₁ l₂ : List Call) :
    exec c s (l₁ ++ l₂) = exec c (exec c s l₁) l₂ := by
  simp [exec, List.foldl_append]

theorem exec_numTaken_full (c : Config) (calls : List Call) : ∀ s : State,
    (s.shouldDisplayPhotoBooth = true → s.shouldDisplayPhotos = true) →
    s.numTakenPhotosInBooth = c.numPhotosToTakeInPhotoBooth →
    soundCount (exec c s calls).log = soundCount s.log ∧
      (exec c s calls).numTakenPhotosInBooth = c.numPhotosToTakeInPhotoBooth := by
  induction calls with
  | nil => intro s _ hn; exact ⟨rfl, hn⟩
  | cons call calls ih =>
    intro s h hn
    obtain ⟨f1, _, f3⟩ := step_stepFacts c s call h
    rcases f3 with ⟨g1, g2, _⟩ | ⟨_, _, g3, _⟩
    · have := ih (step c s call) f1 (g1.trans hn)
      exact ⟨this.1.trans g2, this.2⟩
    · omega

theorem exec_numTaken_le (c : Config) (calls : List Call) : ∀ s : State,
    (s.shouldDisplayPhotoBooth = true → s.shouldDisplayPhotos = true) →
    s.numTakenPhotosInBooth ≤ c.numPhotosToTakeInPhotoBooth →
    (exec c s calls).numTakenPhotosInBooth ≤ c.numPhotosToTakeInPhotoBooth := by
  induction calls with
  | nil => intro s _ hn; exact hn
  | cons call calls ih =>
    intro s h hn
    obtain ⟨f1, _, f3⟩ := step_stepFacts c s call h
    refine ih (step c s call) f1 ?_
    rcases f3 with ⟨g1, _⟩ | ⟨g1, _, g3, _⟩ <;> omega

theorem takePhotoTimes_chain (c : Config) (calls : List Call) : ∀ (s : State) (a : ℚ),
    s.shouldDisplayPhotoBooth = true → s.shouldDisplayPhotos = true → s.lastPhotoTime = a →
    List.Chain (fun x y => y - x > c.secondsBetweenPhotoBoothPhotos) a
      (takePhotoTimes c s calls) := by
  induction calls with
  | nil => intro s a _ _ _; exact List.Chain.nil
  | cons call calls ih =>
    intro s a hb hp ha
    obtain ⟨f1, f2, f3⟩ := step_stepFacts c s call (fun _ => hp)
    unfold takePhotoTimes
    rcases f3 with ⟨_, g2, g3⟩ | ⟨_, g2, _, g4, g5, g6⟩
    · rw [if_neg (by omega)]
      exact ih _ a (f2 hb) (f1 (f2 hb)) ((g3 hb).trans ha)
    · rw [if_pos (by omega)]
      refine List.Chain.cons ?_ (ih _ _ g4 (f1 g4) g5)
      rw [← ha]; exact g6

theorem takePhotoTimes_chain_start (c : Config) (calls : List Call) : ∀ s : State,
    (s.shouldDisplayPhotoBooth = true → s.shouldDisplayPhotos = true) →
    List.Chain' (fun x y => y - x > c.secondsBetweenPhotoBoothPhotos)
      (takePhotoTimes c s calls) := by
  induction calls with
  | nil => intro s _; exact List.chain'_nil
  | cons call calls ih =>
    intro s h
    obtain ⟨f1, _, f3⟩ := step_stepFacts c s call h
    unfold takePhotoTimes
    rcases f3 with ⟨_, g2, _⟩ | ⟨_, g2, _, g4, g5, _⟩
    · rw [if_neg (by omega)]
      exact ih _ f1
    · rw [if_pos (by omega)]
      exact takePhotoTimes_chain c calls _ _ g4 (f1 g4) g5

/-- C4: from the start state, with a non-negative number of booth photos configured, the
booth counter never decreases, grows by at most one per call (and not at all in `update`),
never exceeds the configured number; once it has reached that number no later call runs
`takePhoto`; and two consecutive `takePhoto` calls are more than
`secondsBetweenPhotoBoothPhotos` apart on the timeline. -/
theorem booth_photo_count (c : Config) (hnum : 0 ≤ c.numPhotosToTakeInPhotoBooth)
    (D : ℚ) (w h : Int) (files : List (String × Pixels))
    (pre : List Call) (call : Call) (post : List Call) :
    (exec c (start c D w h files) pre).numTakenPhotosInBooth ≤
      (step c (exec c (start c D w h files) pre) call).numTakenPhotosInBooth ∧
    (step c (exec c (start c D w h files) pre) call).numTakenPhotosInBooth ≤
      (exec c (start c D w h files) pre).numTakenPhotosInBooth + 1 ∧
    (∀ e, call = Call.update e →
      (step c (exec c (start c D w h files) pre) call).numTakenPhotosInBooth =
        (exec c (start c D w h files) pre).numTakenPhotosInBooth) ∧
    (step c (exec c (start c D w h files) pre) call).numTakenPhotosInBooth ≤
      c.numPhotosToTakeInPhotoBooth ∧
    ((exec c (start c D w h files) pre).numTakenPhotosInBooth = c.numPhotosToTakeInPhotoBooth →
      soundCount (exec c (exec c (start c D w h files) pre) (call :: post)).log =
        soundCount (exec c (start c D w h files) pre).log) ∧
    List.Chain' (fun x y => y - x > c.secondsBetweenPhotoBoothPhotos)
      (takePhotoTimes c (start c D w h files) (pre ++ call :: post)) := by
  obtain ⟨s1, s2, _, s4, _⟩ := start_fields c D w h files
  have hstart : (start c D w h files).shouldDisplayPhotoBooth = true →
      (start c D w h files).shouldDisplayPhotos = true := by simp [s2]
  have hpre := exec_booth_imp c pre _ hstart
  have hle := exec_numTaken_le c pre _ hstart (by rw [s4]; exact hnum)
  obtain ⟨_, _, f3⟩ := step_stepFacts c _ call hpre
  refine ⟨?_, ?_, ?_, ?_, ?_, takePhotoTimes_chain_start c _ _ hstart⟩
  · rcases f3 with ⟨g1, _⟩ | ⟨g1, _⟩ <;> omega
  · rcases f3 with ⟨g1, _⟩ | ⟨g1, _⟩ <;> omega
  · intro e he
    subst he
    refine update_cases c e _ (fun s' => s'.numTakenPhotosInBooth =
      (exec c (start c D w h files) pre).numTakenPhotosInBooth) ?_ ?_ ?_ ?_ ?_ ?_ ?_ <;>
      intros <;> rfl
  · rcases f3 with ⟨g1, _⟩ | ⟨g1, _, g3, _⟩ <;> omega
  · intro hfull
    exact (exec_numTaken_full c (call :: post) _ hpre hfull).1

theorem booth_photo_count_witness :
    0 ≤ shipped.numPhotosToTakeInPhotoBooth ∧
    takePhotoTimes shipped (start shipped 60 1440 900 [])
      (boothCalls ++ Call.draw (at60 55) :: callsAt 56) = [52, 55] ∧
    List.Chain' (fun x y => y - x > shipped.secondsBetweenPhotoBoothPhotos)
      (takePhotoTimes shipped (start shipped 60 1440 900 [])
        (boothCalls ++ Call.draw (at60 55) :: callsAt 56)) :=
  ⟨by decide, by decide!,
   (booth_photo_count shipped (by decide) 60 1440 900 [] boothCalls (Call.draw (at60 55))
      (callsAt 56)).2.2.2.2.2⟩

/-! ## The slideshow entry (C2, C3) -/

/-- C2: the code at the scenario of the specification. After four secret photos (files
000 to 003, counter 4) `update` enters the slideshow at 35.5 and sets `numberOfPhotos` to
5 and `displayTimePerSecretPhoto` to 10 / 5 = 2, while `totalNumberOfPhotos` is 4. -/
theorem slideshow_entry_counts_one_more :
    savedPaths (run shipped (start shipped 60 1440 900 []) playbackFrames).log =
      ["output/photo000.jpg", "output/photo001.jpg", "output/photo002.jpg",
       "output/photo003.jpg"] ∧
    (run shipped (start shipped 60 1440 900 []) playbackFrames).photoNumber = 4 ∧
    (run shipped (start shipped 60 1440 900 []) playbackFrames).shouldDisplayPhotos = false ∧
    (update shipped (at60 (71 / 2))
      (run shipped (start shipped 60 1440 900 []) playbackFrames)).shouldDisplayPhotos = true ∧
    (update shipped (at60 (71 / 2))
      (run shipped (start shipped 60 1440 900 []) playbackFrames)).numberOfPhotos = 5 ∧
    (update shipped (at60 (71 / 2))
      (run shipped (start shipped 60 1440 900 []) playbackFrames)).displayTimePerSecretPhoto = 2 ∧
    (update shipped (at60 (71 / 2))
      (run shipped (start shipped 60 1440 900 []) playbackFrames)).totalNumberOfPhotos = 4 := by
  decide!

/-- C3: the code at the scenario of the specification, with strictly increasing samples.
Playback writes files 000 to 003; the slideshow then loads 000, 001, 002, 003 and also
004, a file that was never written. -/
theorem slideshow_reads_unwritten_index :
    List.Pairwise (fun a b => a < b)
      ((playbackFrames ++ slideshowFrames).map (fun f => getTime f.1)) ∧
    savedPaths (run shipped (start shipped 60 1440 900 []) (playbackFrames ++ slideshowFrames)).log
      = ["output/photo000.jpg", "output/photo001.jpg", "output/photo002.jpg",
         "output/photo003.jpg"] ∧
    loadedPaths (run shipped (start shipped 60 1440 900 []) (playbackFrames ++ slideshowFrames)).log
      = ["output/photo000.jpg", "output/photo001.jpg", "output/photo002.jpg",
         "output/photo003.jpg", "output/photo004.jpg"] ∧
    (run shipped (start shipped 60 1440 900 [])
      (playbackFrames ++ slideshowFrames)).shouldDisplayPhotoBooth = false ∧
    (run shipped (start shipped 60 1440 900 []) (playbackFrames ++ slideshowFrames)).files.lookup
      "output/photo004.jpg" = none := by
  decide!

/-! ## The flash (C7) -/

/-- C7, as stated, fails: from the start state with the shipped constants, taking the
first booth photo and drawing fourteen more frames leaves `flash` at -1/20; the last
`draw` started from `flash = 1/50` and did not clamp at 0. -/
theorem flash_goes_negative :
    (exec shipped (start shipped 60 1440 900 []) flashCalls).flash = -1 / 20 ∧
    (exec shipped (start shipped 60 1440 900 []) (flashCallsUpTo 13)).flash = 1 / 50 ∧
    ¬ (0 ≤ (exec shipped (start shipped 60 1440 900 []) flashCalls).flash ∧
        (exec shipped (start shipped 60 1440 900 []) flashCalls).flash ≤ 1) := by
  decide!

theorem update_flash (c : Config) (e : Env) (s : State) : (update c e s).flash = s.flash := by
  refine update_cases c e s (fun s' => s'.flash = s.flash) ?_ ?_ ?_ ?_ ?_ ?_ ?_ <;>
    intros <;> rfl

theorem draw_flash (c : Config) (e : Env) (s : State) :
    (draw c e s).flash = s.flash ∨
    (0 < s.flash ∧ (draw c e s).flash = s.flash - c.flashDecay) ∨
    (draw c e s).flash = 1 - c.flashDecay := by
  obtain ⟨p1, _, _, _, p5, _⟩ := savePending_fields e s
  rw [draw_savePending, ← p5]
  refine draw_cases c e (savePending e s) (fun s' => s'.flash = (savePending e s).flash ∨
    (0 < (savePending e s).flash ∧ s'.flash = (savePending e s).flash - c.flashDecay) ∨
    s'.flash = 1 - c.flashDecay) p1 ?_ ?_ ?_ ?_ ?_ ?_ ?_ ?_ <;> intros <;> simp_all

theorem step_flashInv (c : Config) (hd : 0 < c.flashDecay) (s : State) (call : Call)
    (h : FlashInv c s) : FlashInv c (step c s call) := by
  unfold FlashInv at h ⊢
  cases call with
  | update e => simp only [step, update_flash]; exact h
  | draw e =>
    simp only [step]
    rcases draw_flash c e s with h1 | ⟨h0, h1⟩ | h1 <;> rw [h1] <;> constructor <;> linarith

theorem exec_flashInv (c : Config) (hd : 0 < c.flashDecay) (calls : List Call) :
    ∀ s : State, FlashInv c s → FlashInv c (exec c s calls) := by
  induction calls with
  | nil => intro s h; exact h
  | cons call calls ih => intro s h; exact ih _ (step_flashInv c hd s call h)

theorem draw_flash_capture (c : Config) (e : Env) (s : State)
    (hb : s.shouldDisplayPhotoBooth = true)
    (hw : getTime e - s.photoBoothStartTime >
      c.secondsBetweenSecretPhotosAndFirstPhotoBoothPhoto)
    (hn : s.numTakenPhotosInBooth < c.numPhotosToTakeInPhotoBooth) :
    (draw c e s).flash =
      if getTime e - s.lastPhotoTime > c.secondsBetweenPhotoBoothPhotos then 1 - c.flashDecay
      else if 0 < s.flash then s.flash - c.flashDecay else s.flash := by
  obtain ⟨p1, _, p3, p4, p5, p6, p7, _⟩ := savePending_fields e s
  rw [draw_savePending, ← p5, ← p6]
  rw [← p3] at hb
  rw [← p7] at hw
  rw [← p4] at hn
  refine draw_cases c e (savePending e s) (fun s' => s'.flash =
    if getTime e - (savePending e s).lastPhotoTime > c.secondsBetweenPhotoBoothPhotos
    then 1 - c.flashDecay
    else if 0 < (savePending e s).flash then (savePending e s).flash - c.flashDecay
    else (savePending e s).flash) p1 ?_ ?_ ?_ ?_ ?_ ?_ ?_ ?_
  · intro _ _ _ h; rw [if_pos h]
  · intro _ _ _ h hf; rw [if_neg h, if_pos hf]
  · intro _ _ _ h hf; rw [if_neg h, if_neg hf]
  · intro _ h _; exact absurd ⟨hw, hn⟩ h
  · intro _ h _; exact absurd ⟨hw, hn⟩ h
  · intro h; rw [hb] at h; exact absurd h (by decide)
  · intro h; rw [hb] at h; exact absurd h (by decide)
  · intro h; rw [hb] at h; exact absurd h (by decide)

/-- C7, amended: with a positive `flashDecay` (7/100 as shipped), every state reachable
from the start state has `-flashDecay < flash ≤ 1`. A `draw` in the capture phase that
takes a photo leaves `flash` at `1 - flashDecay`; one that takes none lowers a positive
`flash` by `flashDecay`, without clamping at 0, and leaves a `flash ≤ 0` as it is. -/
theorem flash_bounds (c : Config) (hd : 0 < c.flashDecay)
    (D : ℚ) (w h : Int) (files : List (String × Pixels)) (calls : List Call) (e : Env) :
    -c.flashDecay < (exec c (start c D w h files) calls).flash ∧
    (exec c (start c D w h files) calls).flash ≤ 1 ∧
    ((exec c (start c D w h files) calls).shouldDisplayPhotoBooth = true →
      getTime e - (exec c (start c D w h files) calls).photoBoothStartTime >
        c.secondsBetweenSecretPhotosAndFirstPhotoBoothPhoto →
      (exec c (start c D w h files) calls).numTakenPhotosInBooth <
        c.numPhotosToTakeInPhotoBooth →
      (draw c e (exec c (start c D w h files) calls)).flash =
        if getTime e - (exec c (start c D w h files) calls).lastPhotoTime >
            c.secondsBetweenPhotoBoothPhotos
        then 1 - c.flashDecay
        else if 0 < (exec c (start c D w h files) calls).flash
          then (exec c (start c D w h files) calls).flash - c.flashDecay
          else (exec c (start c D w h files) calls).flash) := by
  have h0 : FlashInv c (start c D w h files) := by
    unfold FlashInv
    rw [(start_fields c D w h files).2.2.2.2.1]
    constructor <;> linarith
  have := exec_flashInv c hd calls _ h0
  exact ⟨this.1, this.2, draw_flash_capture c e _⟩

theorem flash_bounds_witness :
    0 < shipped.flashDecay ∧
    (exec shipped (start shipped 60 1440 900 []) flashCalls).flash = -1 / 20 ∧
    -shipped.flashDecay < (exec shipped (start shipped 60 1440 900 []) flashCalls).flash ∧
    (exec shipped (start shipped 60 1440 900 []) flashCalls).flash ≤ 1 :=
  ⟨by decide!, by decide!,
   (flash_bounds shipped (by decide!) 60 1440 900 [] flashCalls (at60 52)).1,
   (flash_bounds shipped (by decide!) 60 1440 900 [] flashCalls (at60 52)).2.1⟩

/-! ## Secret captures during Playback (C6) -/

theorem update_playback (c : Config) (e : Env) (s : State)
    (hp : s.shouldDisplayPhotos = false) (hle : getTime e ≤ s.displaySecretPhotosTime) :
    update c e s =
      if getTime e - s.lastPhotoTime > c.secondsBetweenSecretPhotosTaken
      then { s with lastPhotoTime := getTime e, shouldTakePhoto := true } else s := by
  refine update_cases c e s (fun u => u =
      if getTime e - s.lastPhotoTime > c.secondsBetweenSecretPhotosTaken
      then { s with lastPhotoTime := getTime e, shouldTakePhoto := true } else s)
    ?_ ?_ ?_ ?_ ?_ ?_ ?_
  · intro h; rw [hp] at h; exact absurd h (by decide)
  · intro h; rw [hp] at h; exact absurd h (by decide)
  · intro h; rw [hp] at h; exact absurd h (by decide)
  · intro h; rw [hp] at h; exact absurd h (by decide)
  · intro _ h1 _; exact absurd h1 (not_lt.mpr hle)
  · intro _ _ h; rw [if_pos h]
  · intro _ _ h; rw [if_neg h]

theorem draw_not_booth (c : Config) (e : Env) (s : State)
    (hb : s.shouldDisplayPhotoBooth = false) :
    (draw c e s).shouldDisplayPhotos = s.shouldDisplayPhotos ∧
    (draw c e s).shouldDisplayPhotoBooth = false ∧
    (draw c e s).shouldTakePhoto = false ∧
    (draw c e s).displaySecretPhotosTime = s.displaySecretPhotosTime ∧
    (draw c e s).lastPhotoTime = s.lastPhotoTime ∧
    savedPaths (draw c e s).log =
      savedPaths s.log ++ (if s.shouldTakePhoto = true then [photoPath s.photoNumber] else []) := by
  by_cases hp : s.shouldTakePhoto = true
  · rw [draw_pending c e s hp, if_pos hp]
    refine draw_cases c e _ (fun s' => s'.shouldDisplayPhotos = s.shouldDisplayPhotos ∧
      s'.shouldDisplayPhotoBooth = false ∧ s'.shouldTakePhoto = false ∧
      s'.displaySecretPhotosTime = s.displaySecretPhotosTime ∧
      s'.lastPhotoTime = s.lastPhotoTime ∧
      savedPaths s'.log = savedPaths s.log ++ [photoPath s.photoNumber]) rfl
      ?_ ?_ ?_ ?_ ?_ ?_ ?_ ?_ <;> intros <;> simp_all [savedPaths]
  · have hp' : s.shouldTakePhoto = false := by simpa using hp
    rw [if_neg hp]
    refine draw_cases c e s (fun s' => s'.shouldDisplayPhotos = s.shouldDisplayPhotos ∧
      s'.shouldDisplayPhotoBooth = false ∧ s'.shouldTakePhoto = false ∧
      s'.displaySecretPhotosTime = s.displaySecretPhotosTime ∧
      s'.lastPhotoTime = s.lastPhotoTime ∧
      savedPaths s'.log = savedPaths s.log ++ []) hp'
      ?_ ?_ ?_ ?_ ?_ ?_ ?_ ?_ <;> intros <;> simp_all [savedPaths]

/-- One Playback frame at a sample that is not after `displaySecretPhotosTime`: the
phase stays Playback, and a photo is written exactly when the interval has passed. -/
theorem frame_playback (c : Config) (s : State) (f : Env × Env)
    (hp : s.shouldDisplayPhotos = false) (hb : s.shouldDisplayPhotoBooth = false)
    (ht : s.shouldTakePhoto = false) (hle : getTime f.1 ≤ s.displaySecretPhotosTime) :
    (frame c s f).shouldDisplayPhotos = false ∧
    (frame c s f).shouldDisplayPhotoBooth = false ∧
    (frame c s f).shouldTakePhoto = false ∧
    (frame c s f).displaySecretPhotosTime = s.displaySecretPhotosTime ∧
    ((getTime f.1 - s.lastPhotoTime > c.secondsBetweenSecretPhotosTaken ∧
        (frame c s f).lastPhotoTime = getTime f.1 ∧
        writeCount (frame c s f) = writeCount s + 1) ∨
     (¬ getTime f.1 - s.lastPhotoTime > c.secondsBetweenSecretPhotosTaken ∧
        (frame c s f).lastPhotoTime = s.lastPhotoTime ∧
        writeCount (frame c s f) = writeCount s)) := by
  unfold frame writeCount
  rw [update_playback c f.1 s hp hle]
  by_cases h : getTime f.1 - s.lastPhotoTime > c.secondsBetweenSecretPhotosTaken
  · rw [if_pos h]
    obtain ⟨d1, d2, d3, d4, d5, d6⟩ := draw_not_booth c f.2
      { s with lastPhotoTime := getTime f.1, shouldTakePhoto := true } hb
    refine ⟨d1.trans hp, d2, d3, d4, Or.inl ⟨h, d5, ?_⟩⟩
    rw [d6]; simp
  · rw [if_neg h]
    obtain ⟨d1, d2, d3, d4, d5, d6⟩ := draw_not_booth c f.2 s hb
    refine ⟨d1.trans hp, d2, d3, d4, Or.inr ⟨h, d5, ?_⟩⟩
    rw [d6, ht]; simp

theorem run_playback_upper (c : Config) (D : ℚ)
    (fs : List (Env × Env)) : ∀ s : State,
    s.shouldDisplayPhotos = false → s.shouldDisplayPhotoBooth = false →
    s.shouldTakePhoto = false → s.displaySecretPhotosTime = D →
    (∀ f ∈ fs, getTime f.1 ≤ D) →
    (writeCount s : ℚ) * c.secondsBetweenSecretPhotosTaken ≤ s.lastPhotoTime →
    s.lastPhotoTime ≤ D →
    (writeCount (run c s fs) : ℚ) * c.secondsBetweenSecretPhotosTaken ≤ D := by
  induction fs with
  | nil => intro s _ _ _ _ _ h1 h2; exact h1.trans h2
  | cons f fs ih =>
    intro s hp hb ht hD hfs h1 h2
    have hf : getTime f.1 ≤ s.displaySecretPhotosTime := by
      rw [hD]; exact hfs f (List.mem_cons_self _ _)
    obtain ⟨q1, q2, q3, q4, q5⟩ := frame_playback c s f hp hb ht hf
    refine ih (frame c s f) q1 q2 q3 (q4.trans hD)
      (fun g hg => hfs g (List.mem_cons_of_mem _ hg)) ?_ ?_
    · rcases q5 with ⟨r1, r2, r3⟩ | ⟨_, r2, r3⟩
      · rw [r2, r3]; push_cast; linarith
      · rw [r2, r3]; exact h1
    · rcases q5 with ⟨_, r2, _⟩ | ⟨_, r2, _⟩
      · rw [r2, ← hD]; exact hf
      · rw [r2]; exact h2

theorem run_playback_lower (c : Config) (hI : 0 < c.secondsBetweenSecretPhotosTaken)
    (δ D : ℚ) (fs : List (Env × Env)) :
    ∀ (s : State) (m : Nat),
    s.shouldDisplayPhotos = false → s.shouldDisplayPhotoBooth = false →
    s.shouldTakePhoto = false → s.displaySecretPhotosTime = D →
    (∀ f ∈ fs, getTime f.1 ≤ D) →
    fs.map (fun f => getTime f.1) = (List.range' m fs.length).map (fun i : Nat => (i : ℚ) * δ) →
    s.lastPhotoTime ≤ (writeCount s : ℚ) * (c.secondsBetweenSecretPhotosTaken + δ) →
    (m : ℚ) * δ ≤ s.lastPhotoTime + c.secondsBetweenSecretPhotosTaken + δ →
    (run c s fs).lastPhotoTime ≤
        (writeCount (run c s fs) : ℚ) * (c.secondsBetweenSecretPhotosTaken + δ) ∧
      ((m + fs.length : Nat) : ℚ) * δ ≤
        (run c s fs).lastPhotoTime + c.secondsBetweenSecretPhotosTaken + δ := by
  induction fs with
  | nil => intro s m _ _ _ _ _ _ h1 h2; exact ⟨h1, by simpa using h2⟩
  | cons f fs ih =>
    intro s m hp hb ht hD hfs htimes h1 h2
    have hf : getTime f.1 ≤ s.displaySecretPhotosTime := by
      rw [hD]; exact hfs f (List.mem_cons_self _ _)
    simp only [List.map_cons, List.length_cons, List.range'_succ, List.cons.injEq] at htimes
    obtain ⟨hhead, htail⟩ := htimes
    obtain ⟨q1, q2, q3, q4, q5⟩ := frame_playback c s f hp hb ht hf
    have key := ih (frame c s f) (m + 1) q1 q2 q3 (q4.trans hD)
      (fun g hg => hfs g (List.mem_cons_of_mem _ hg)) htail ?_ ?_
    · refine ⟨key.1, ?_⟩
      have e : m + (fs.length + 1) = m + 1 + fs.length := by omega
      simp only [List.length_cons, run, List.foldl_cons] at key ⊢
      rw [e]; exact key.2
    · rcases q5 with ⟨_, r2, r3⟩ | ⟨_, r2, r3⟩
      · rw [r2, r3, hhead]; push_cast; linarith
      · rw [r2, r3]; exact h1
    · rcases q5 with ⟨_, r2, _⟩ | ⟨r1, r2, _⟩
      · rw [r2, hhead]; push_cast; linarith
      · rw [r2]; rw [hhead] at r1; push_cast; linarith

/-- C6: with a positive capture interval `I` and Playback lasting a non-negative
`D = displaySecretPhotosTime`, a run from the start state (where `lastPhotoTime = 0`)
whose samples are all at most `D` writes at most `floor (D / I)` secret photos; and when
the samples are the multiples `0, δ, 2δ, ...` of a step `δ > 0` up to `D`, with
`floor (D / I) * (I + δ) ≤ D`, it writes exactly `floor (D / I)`. -/
theorem secret_capture_count (c : Config) (hI : 0 < c.secondsBetweenSecretPhotosTaken)
    (V : ℚ) (w h : Int) (files : List (String × Pixels)) (D : ℚ)
    (hD : (start c V w h files).displaySecretPhotosTime = D) (h0 : 0 ≤ D) :
    (∀ fs : List (Env × Env), (∀ f ∈ fs, getTime f.1 ≤ D) →
      (writeCount (run c (start c V w h files) fs) : Int) ≤
        ⌊D / c.secondsBetweenSecretPhotosTaken⌋) ∧
    (∀ (δ : ℚ) (fs : List (Env × Env)), 0 < δ →
      fs.map (fun f => getTime f.1) =
        (List.range (⌊D / δ⌋.toNat + 1)).map (fun i : Nat => (i : ℚ) * δ) →
      (⌊D / c.secondsBetweenSecretPhotosTaken⌋ : ℚ) * (c.secondsBetweenSecretPhotosTaken + δ) ≤ D →
      (writeCount (run c (start c V w h files) fs) : Int) =
        ⌊D / c.secondsBetweenSecretPhotosTaken⌋) := by
  obtain ⟨s1, s2, s3, _, _, s6, _, s8⟩ := start_fields c V w h files
  have hw0 : writeCount (start c V w h files) = 0 := by simp [writeCount, s8, savedPaths]
  have upper : ∀ fs : List (Env × Env), (∀ f ∈ fs, getTime f.1 ≤ D) →
      (writeCount (run c (start c V w h files) fs) : Int) ≤
        ⌊D / c.secondsBetweenSecretPhotosTaken⌋ := by
    intro fs hfs
    have := run_playback_upper c D fs _ s1 s2 s3 hD hfs (by rw [hw0, s6]; simp)
      (by rw [s6]; exact h0)
    rw [Int.le_floor, le_div_iff₀ hI]
    exact_mod_cast this
  refine ⟨upper, ?_⟩
  intro δ fs hδ htimes hK
  have hfloor : (0 : Int) ≤ ⌊D / δ⌋ := Int.floor_nonneg.mpr (div_nonneg h0 hδ.le)
  have hM : ((⌊D / δ⌋.toNat : Nat) : ℚ) = (⌊D / δ⌋ : ℚ) := by
    have := Int.toNat_of_nonneg hfloor
    exact_mod_cast this
  have hMle : ((⌊D / δ⌋.toNat : Nat) : ℚ) * δ ≤ D := by
    rw [hM]
    have := Int.floor_le (D / δ)
    rwa [le_div_iff₀ hδ] at this
  have hMgt : D < (((⌊D / δ⌋.toNat : Nat) : ℚ) + 1) * δ := by
    rw [hM]
    have := Int.lt_floor_add_one (D / δ)
    rwa [div_lt_iff₀ hδ] at this
  have hfs : ∀ f ∈ fs, getTime f.1 ≤ D := by
    intro f hf
    have hmem : getTime f.1 ∈ fs.map (fun f => getTime f.1) := List.mem_map_of_mem _ hf
    rw [htimes, List.mem_map] at hmem
    obtain ⟨i, hi, hie⟩ := hmem
    rw [List.mem_range] at hi
    rw [← hie]
    have hiM : (i : ℚ) ≤ ((⌊D / δ⌋.toNat : Nat) : ℚ) := by exact_mod_cast Nat.lt_succ_iff.mp hi
    calc (i : ℚ) * δ ≤ ((⌊D / δ⌋.toNat : Nat) : ℚ) * δ :=
          mul_le_mul_of_nonneg_right hiM hδ.le
      _ ≤ D := hMle
  have hlen : fs.length = ⌊D / δ⌋.toNat + 1 := by
    have := congrArg List.length htimes
    simpa using this
  have hup := upper fs hfs
  have hlow := run_playback_lower c hI δ D fs (start c V w h files) 0 s1 s2 s3 hD hfs
    (by rw [hlen, ← List.range_eq_range']; exact htimes)
    (by rw [hw0, s6]; simp)
    (by rw [s6]; push_cast; linarith)
  obtain ⟨l1, l2⟩ := hlow
  rw [hlen] at l2
  push_cast at l2
  have hlt : (⌊D / c.secondsBetweenSecretPhotosTaken⌋ : ℚ) *
      (c.secondsBetweenSecretPhotosTaken + δ) <
      ((writeCount (run c (start c V w h files) fs) : ℚ) + 1) *
        (c.secondsBetweenSecretPhotosTaken + δ) := by
    nlinarith
  have hpos : 0 < c.secondsBetweenSecretPhotosTaken + δ := by linarith
  have hlt2 := lt_of_mul_lt_mul_right hlt hpos.le
  have hlt3 : ⌊D / c.secondsBetweenSecretPhotosTaken⌋ <
      (writeCount (run c (start c V w h files) fs) : Int) + 1 := by exact_mod_cast hlt2
  omega

theorem secret_capture_count_witness :
    0 < shipped.secondsBetweenSecretPhotosTaken ∧
    (start shipped 60 1440 900 []).displaySecretPhotosTime = 35 ∧
    ⌊(35 : ℚ) / shipped.secondsBetweenSecretPhotosTaken⌋ = 4 ∧
    savedPaths (run shipped (start shipped 60 1440 900 []) halfSecondFrames).log =
      ["output/photo000.jpg", "output/photo001.jpg", "output/photo002.jpg",
       "output/photo003.jpg"] ∧
    (writeCount (run shipped (start shipped 60 1440 900 []) halfSecondFrames) : Int) =
      ⌊(35 : ℚ) / shipped.secondsBetweenSecretPhotosTaken⌋ :=
  ⟨by decide!, by decide!, by decide!, by decide!,
   (secret_capture_count shipped (by decide!) 60 1440 900 [] 35 (by decide!) (by norm_num)).2
     (1 / 2) halfSecondFrames (by norm_num) (by decide!) (by decide!)⟩

/-! ## Boundaries and the content rectangle (C11, C14, C18) -/

/-- C11: for non-negative configuration constants and a video of duration `D`, the
boundaries `setupVideo` computes satisfy `displaySecretPhotosTime ≤ photoBoothStartTime ≤ D`,
and `0 ≤ displaySecretPhotosTime` holds exactly when `D` is at least the time the booth
photos, the warm-up and the slideshow need together. -/
theorem setupVideo_ordered (c : Config) (D : ℚ) (s : State)
    (hn : 0 ≤ c.numPhotosToTakeInPhotoBooth) (hb : 0 ≤ c.secondsBetweenPhotoBoothPhotos)
    (hw : 0 ≤ c.secondsBetweenSecretPhotosAndFirstPhotoBoothPhoto)
    (hs : 0 ≤ c.secondsToShowSecretPhotos) :
    (setupVideo c D s).displaySecretPhotosTime ≤ (setupVideo c D s).photoBoothStartTime ∧
    (setupVideo c D s).photoBoothStartTime ≤ D ∧
    (0 ≤ (setupVideo c D s).displaySecretPhotosTime ↔
      D ≥ (c.numPhotosToTakeInPhotoBooth : ℚ) * c.secondsBetweenPhotoBoothPhotos
        + c.secondsBetweenSecretPhotosAndFirstPhotoBoothPhoto + c.secondsToShowSecretPhotos) := by
  have hn' : (0 : ℚ) ≤ (c.numPhotosToTakeInPhotoBooth : ℚ) := by exact_mod_cast hn
  have hprod := mul_nonneg hn' hb
  simp only [setupVideo]
  refine ⟨by linarith, by linarith, ⟨fun h => by linarith, fun h => by linarith⟩⟩

theorem setupVideo_ordered_witness :
    0 ≤ shipped.numPhotosToTakeInPhotoBooth ∧
    (setupVideo shipped 60 (globals [])).displaySecretPhotosTime ≤
      (setupVideo shipped 60 (globals [])).photoBoothStartTime ∧
    (setupVideo shipped 60 (globals [])).photoBoothStartTime ≤ 60 ∧
    0 ≤ (setupVideo shipped 60 (globals [])).displaySecretPhotosTime :=
  ⟨by decide,
   (setupVideo_ordered shipped 60 (globals []) (by decide) (by decide!) (by decide!)
      (by decide!)).1,
   (setupVideo_ordered shipped 60 (globals []) (by decide) (by decide!) (by decide!)
      (by decide!)).2.1,
   (setupVideo_ordered shipped 60 (globals []) (by decide) (by decide!) (by decide!)
      (by decide!)).2.2.mpr (by decide!)⟩

theorem toInt32_eq (x : Int) (h1 : -2147483648 ≤ x) (h2 : x < 2147483648) : toInt32 x = x := by
  unfold toInt32
  norm_num
  omega

/-- The fields `onAppResize` sets, for a screen whose products do not overflow. -/
theorem onAppResize_fields (w h : Int) (s : State) (hw : 0 < w) (hh : 0 < h)
    (hx : w * 9 < 2147483648) (hy : h * 16 < 2147483648) :
    (w * 9 < h * 16 →
      (onAppResize w h s).videoX = 0 ∧ (onAppResize w h s).videoWidth = w ∧
      (onAppResize w h s).videoHeight = w / 16 * 9 ∧
      (onAppResize w h s).videoY = h / 2 - (w / 16 * 9) / 2) ∧
    (¬ w * 9 < h * 16 →
      (onAppResize w h s).videoY = 0 ∧ (onAppResize w h s).videoHeight = h ∧
      (onAppResize w h s).videoWidth = h / 9 * 16 ∧
      (onAppResize w h s).videoX = w / 2 - (h / 9 * 16) / 2) := by
  have e1 : toInt32 (w * 9) = w * 9 := toInt32_eq _ (by omega) hx
  have e2 : toInt32 (h * 16) = h * 16 := toInt32_eq _ (by omega) hy
  have d1 : Int.tdiv w 16 = w / 16 := Int.tdiv_eq_ediv (by omega) (by omega)
  have d2 : Int.tdiv h 9 = h / 9 := Int.tdiv_eq_ediv (by omega) (by omega)
  have d3 : Int.tdiv h 2 = h / 2 := Int.tdiv_eq_ediv (by omega) (by omega)
  have d4 : Int.tdiv w 2 = w / 2 := Int.tdiv_eq_ediv (by omega) (by omega)
  have e3 : toInt32 (w / 16 * 9) = w / 16 * 9 := toInt32_eq _ (by omega) (by omega)
  have e4 : toInt32 (h / 9 * 16) = h / 9 * 16 := toInt32_eq _ (by omega) (by omega)
  have d5 : Int.tdiv (w / 16 * 9) 2 = (w / 16 * 9) / 2 := Int.tdiv_eq_ediv (by omega) (by omega)
  have d6 : Int.tdiv (h / 9 * 16) 2 = (h / 9 * 16) / 2 := Int.tdiv_eq_ediv (by omega) (by omega)
  unfold onAppResize
  simp only [e1, e2, d1, d2, d3, d4, e3, e4, d5, d6]
  constructor
  · intro hlt; rw [if_pos hlt]; exact ⟨rfl, rfl, rfl, rfl⟩
  · intro hlt; rw [if_neg hlt]; exact ⟨rfl, rfl, rfl, rfl⟩

/-- C14, as stated, fails: on a 1366 x 768 screen `onAppResize` computes a 1360 x 768
rectangle, and 1360 * 9 = 12240 is not 768 * 16 = 12288. -/
theorem aspect_not_exact :
    (onAppResize 1366 768 (globals [])).videoWidth = 1360 ∧
    (onAppResize 1366 768 (globals [])).videoHeight = 768 ∧
    ¬ ((onAppResize 1366 768 (globals [])).videoWidth * 9 =
        (onAppResize 1366 768 (globals [])).videoHeight * 16) := by
  decide!

/-- C14, amended: for a screen with positive width and height whose products with 9 and
16 fit in `int`, the content rectangle is 16:9 up to the truncation of the integer
division: `videoWidth * 9` and `videoHeight * 16` differ by less than 144, and they are
equal exactly when the screen width is a multiple of 16 (screen narrower than 16:9) or
the screen height is a multiple of 9 (otherwise). -/
theorem aspect_up_to_truncation (w h : Int) (s : State) (hw : 0 < w) (hh : 0 < h)
    (hx : w * 9 < 2147483648) (hy : h * 16 < 2147483648) :
    |(onAppResize w h s).videoWidth * 9 - (onAppResize w h s).videoHeight * 16| < 144 ∧
    (w * 9 < h * 16 →
      ((onAppResize w h s).videoWidth * 9 = (onAppResize w h s).videoHeight * 16 ↔
        w % 16 = 0)) ∧
    (¬ w * 9 < h * 16 →
      ((onAppResize w h s).videoWidth * 9 = (onAppResize w h s).videoHeight * 16 ↔
        h % 9 = 0)) := by
  obtain ⟨f1, f2⟩ := onAppResize_fields w h s hw hh hx hy
  by_cases hlt : w * 9 < h * 16
  · obtain ⟨_, g2, g3, _⟩ := f1 hlt
    rw [g2, g3]
    refine ⟨by rw [abs_lt]; constructor <;> omega, fun _ => by constructor <;> intro <;> omega,
      fun hn => absurd hlt hn⟩
  · obtain ⟨_, g2, g3, _⟩ := f2 hlt
    rw [g2, g3]
    refine ⟨by rw [abs_lt]; constructor <;> omega, fun hn => absurd hn hlt,
      fun _ => by constructor <;> intro <;> omega⟩

theorem aspect_up_to_truncation_witness :
    (0 : Int) < 1366 ∧
    |(onAppResize 1366 768 (globals [])).videoWidth * 9
      - (onAppResize 1366 768 (globals [])).videoHeight * 16| < 144 :=
  ⟨by decide, (aspect_up_to_truncation 1366 768 (globals []) (by decide) (by decide)
    (by decide) (by decide)).1⟩

/-- C18: for a screen with positive width and height whose products with 9 and 16 fit in
`int`, the rectangle `onAppResize` computes has non-negative origin and size, lies inside
the screen, and spans the full width (with `videoX = 0`) or the full height (with
`videoY = 0`). -/
theorem rectangle_inside_screen (w h : Int) (s : State) (hw : 0 < w) (hh : 0 < h)
    (hx : w * 9 < 2147483648) (hy : h * 16 < 2147483648) :
    0 ≤ (onAppResize w h s).videoX ∧ 0 ≤ (onAppResize w h s).videoY ∧
    0 ≤ (onAppResize w h s).videoWidth ∧ 0 ≤ (onAppResize w h s).videoHeight ∧
    (onAppResize w h s).videoX + (onAppResize w h s).videoWidth ≤ w ∧
    (onAppResize w h s).videoY + (onAppResize w h s).videoHeight ≤ h ∧
    (((onAppResize w h s).videoWidth = w ∧ (onAppResize w h s).videoX = 0) ∨
      ((onAppResize w h s).videoHeight = h ∧ (onAppResize w h s).videoY = 0)) := by
  obtain ⟨f1, f2⟩ := onAppResize_fields w h s hw hh hx hy
  by_cases hlt : w * 9 < h * 16
  · obtain ⟨g1, g2, g3, g4⟩ := f1 hlt
    rw [g1, g2, g3, g4]
    refine ⟨?_, ?_, ?_, ?_, ?_, ?_, Or.inl ⟨rfl, rfl⟩⟩ <;> omega
  · obtain ⟨g1, g2, g3, g4⟩ := f2 hlt
    rw [g1, g2, g3, g4]
    refine ⟨?_, ?_, ?_, ?_, ?_, ?_, Or.inr ⟨rfl, rfl⟩⟩ <;> omega

theorem rectangle_inside_screen_witness :
    (0 : Int) < 1366 ∧
    (onAppResize 1366 768 (globals [])).videoX = 3 ∧
    (onAppResize 1366 768 (globals [])).videoX
      + (onAppResize 1366 768 (globals [])).videoWidth ≤ 1366 :=
  ⟨by decide, by decide!, (rectangle_inside_screen 1366 768 (globals []) (by decide) (by decide)
    (by decide) (by decide)).2.2.2.2.1⟩

/-! ## Phases (C12, C15, C17) -/

theorem step_photos_mono (c : Config) (s : State) (call : Call)
    (h : s.shouldDisplayPhotos = true) : (step c s call).shouldDisplayPhotos = true := by
  cases call with
  | update e =>
    simp only [step]
    refine update_cases c e s (fun s' => s'.shouldDisplayPhotos = true) ?_ ?_ ?_ ?_ ?_ ?_ ?_ <;>
      intros <;> simp_all
  | draw e =>
    obtain ⟨p1, p2, _⟩ := savePending_fields e s
    simp only [step]
    rw [draw_savePending]
    refine draw_cases c e (savePending e s) (fun s' => s'.shouldDisplayPhotos = true) p1
      ?_ ?_ ?_ ?_ ?_ ?_ ?_ ?_ <;> intros <;> simp_all

theorem exec_photos_mono (c : Config) (calls : List Call) : ∀ s : State,
    s.shouldDisplayPhotos = true → (exec c s calls).shouldDisplayPhotos = true := by
  induction calls with
  | nil => intro s h; exact h
  | cons call calls ih => intro s h; exact ih _ (step_photos_mono c s call h)

theorem exec_booth_mono (c : Config) (calls : List Call) : ∀ s : State,
    (s.shouldDisplayPhotoBooth = true → s.shouldDisplayPhotos = true) →
    s.shouldDisplayPhotoBooth = true → (exec c s calls).shouldDisplayPhotoBooth = true := by
  induction calls with
  | nil => intro s _ h; exact h
  | cons call calls ih =>
    intro s hi h
    obtain ⟨f1, f2, _⟩ := step_stepFacts c s call hi
    exact ih _ f1 (f2 h)

theorem start_booth_imp (c : Config) (D : ℚ) (w h : Int) (files : List (String × Pixels)) :
    (start c D w h files).shouldDisplayPhotoBooth = true →
      (start c D w h files).shouldDisplayPhotos = true := by
  rw [(start_fields c D w h files).2.1]
  intro h; exact absurd h (by decide)

/-- C12: phases only advance. In every state reachable from the start state by `update`
and `draw` calls, the photobooth flag implies the slideshow flag, and a flag that is set
stays set under any further calls. -/
theorem phases_only_advance (c : Config) (D : ℚ) (w h : Int) (files : List (String × Pixels))
    (pre post : List Call) :
    ((exec c (start c D w h files) pre).shouldDisplayPhotoBooth = true →
      (exec c (start c D w h files) pre).shouldDisplayPhotos = true) ∧
    ((exec c (start c D w h files) pre).shouldDisplayPhotos = true →
      (exec c (exec c (start c D w h files) pre) post).shouldDisplayPhotos = true) ∧
    ((exec c (start c D w h files) pre).shouldDisplayPhotoBooth = true →
      (exec c (exec c (start c D w h files) pre) post).shouldDisplayPhotoBooth = true) := by
  have hpre := exec_booth_imp c pre _ (start_booth_imp c D w h files)
  exact ⟨hpre, exec_photos_mono c post _, exec_booth_mono c post _ hpre⟩

theorem phases_only_advance_witness :
    (exec shipped (start shipped 60 1440 900 []) boothCalls).shouldDisplayPhotoBooth = true ∧
    (exec shipped (exec shipped (start shipped 60 1440 900 []) boothCalls)
      (callsAt 20)).shouldDisplayPhotoBooth = true :=
  ⟨by decide!,
   (phases_only_advance shipped 60 1440 900 [] boothCalls (callsAt 20)).2.2 (by decide!)⟩

theorem exec_taken_imp_booth (c : Config) (calls : List Call) : ∀ s : State,
    (s.shouldDisplayPhotoBooth = true → s.shouldDisplayPhotos = true) →
    (s.numTakenPhotosInBooth = 0 ∨ s.shouldDisplayPhotoBooth = true) →
    ((exec c s calls).numTakenPhotosInBooth = 0 ∨
      (exec c s calls).shouldDisplayPhotoBooth = true) := by
  induction calls with
  | nil => intro s _ h; exact h
  | cons call calls ih =>
    intro s hi h
    obtain ⟨f1, f2, f3⟩ := step_stepFacts c s call hi
    refine ih _ f1 ?_
    rcases f3 with ⟨g1, _⟩ | ⟨_, _, _, g4, _⟩
    · rcases h with h | h
      · exact Or.inl (g1.trans h)
      · exact Or.inr (f2 h)
    · exact Or.inr g4

theorem draw_booth (c : Config) (e : Env) (s : State)
    (hb : s.shouldDisplayPhotoBooth = true) :
    draw c e s = drawPhotoBooth c e (savePending e s) := by
  unfold draw savePending
  by_cases hp : s.shouldTakePhoto = true
  · simp only [hp, if_true, getNextPhotoPath, ofSaveImage, hb]
  · simp only [hp, if_false, hb, if_true, Bool.false_eq_true]

theorem draw_not_booth_eq (c : Config) (e : Env) (s : State)
    (hb : s.shouldDisplayPhotoBooth = false) (hn : s.numTakenPhotosInBooth = 0) :
    draw c e s =
      if s.shouldDisplayPhotos = true then
        { savePending e s with
          log := (savePending e s).log ++ [Event.drawCurrentImage (savePending e s).currentImage
            (savePending e s).videoX (savePending e s).videoY (savePending e s).videoWidth
            (savePending e s).videoHeight] }
      else
        { savePending e s with
          log := (savePending e s).log ++ [Event.drawPlayer
            (savePending e s).videoX (savePending e s).videoY (savePending e s).videoWidth
            (savePending e s).videoHeight] } := by
  obtain ⟨p1, p2, p3, p4, _⟩ := savePending_fields e s
  rw [draw_savePending, ← p2]
  rw [← p3] at hb
  rw [← p4] at hn
  refine draw_cases c e (savePending e s) (fun s' => s' =
      if (savePending e s).shouldDisplayPhotos = true then
        { savePending e s with
          log := (savePending e s).log ++ [Event.drawCurrentImage (savePending e s).currentImage
            (savePending e s).videoX (savePending e s).videoY (savePending e s).videoWidth
            (savePending e s).videoHeight] }
      else
        { savePending e s with
          log := (savePending e s).log ++ [Event.drawPlayer
            (savePending e s).videoX (savePending e s).videoY (savePending e s).videoWidth
            (savePending e s).videoHeight] }) p1 ?_ ?_ ?_ ?_ ?_ ?_ ?_ ?_
  · intro h; rw [hb] at h; exact absurd h (by decide)
  · intro h; rw [hb] at h; exact absurd h (by decide)
  · intro h; rw [hb] at h; exact absurd h (by decide)
  · intro h; rw [hb] at h; exact absurd h (by decide)
  · intro h; rw [hb] at h; exact absurd h (by decide)
  · intro _ _ h; rw [if_pos h]
  · intro _ _ h; rw [if_neg (by simp [h])]
  · intro _ h; exact absurd hn h

/-- C17: in every state reachable from the start state, a positive booth counter implies
the photobooth flag, so the test `numTakenPhotosInBooth == 0` in `draw` never fails, and
`draw` (after writing a pending capture) selects exactly one visual: `drawPhotoBooth` in
the photobooth, the current slideshow image in the slideshow, the video in Playback. -/
theorem draw_selects_one_visual (c : Config) (D : ℚ) (w h : Int)
    (files : List (String × Pixels)) (calls : List Call) (e : Env) :
    ((exec c (start c D w h files) calls).numTakenPhotosInBooth ≠ 0 →
      (exec c (start c D w h files) calls).shouldDisplayPhotoBooth = true) ∧
    ((exec c (start c D w h files) calls).shouldDisplayPhotoBooth = true →
      draw c e (exec c (start c D w h files) calls) =
        drawPhotoBooth c e (savePending e (exec c (start c D w h files) calls))) ∧
    ((exec c (start c D w h files) calls).shouldDisplayPhotoBooth = false →
      (exec c (start c D w h files) calls).shouldDisplayPhotos = true →
      draw c e (exec c (start c D w h files) calls) =
        { savePending e (exec c (start c D w h files) calls) with
          log := (savePending e (exec c (start c D w h files) calls)).log ++
            [Event.drawCurrentImage
              (savePending e (exec c (start c D w h files) calls)).currentImage
              (savePending e (exec c (start c D w h files) calls)).videoX
              (savePending e (exec c (start c D w h files) calls)).videoY
              (savePending e (exec c (start c D w h files) calls)).videoWidth
              (savePending e (exec c (start c D w h files) calls)).videoHeight] }) ∧
    ((exec c (start c D w h files) calls).shouldDisplayPhotoBooth = false →
      (exec c (start c D w h files) calls).shouldDisplayPhotos = false →
      draw c e (exec c (start c D w h files) calls) =
        { savePending e (exec c (start c D w h files) calls) with
          log := (savePending e (exec c (start c D w h files) calls)).log ++
            [Event.drawPlayer
              (savePending e (exec c (start c D w h files) calls)).videoX
              (savePending e (exec c (start c D w h files) calls)).videoY
              (savePending e (exec c (start c D w h files) calls)).videoWidth
              (savePending e (exec c (start c D w h files) calls)).videoHeight] }) := by
  have hinv := exec_taken_imp_booth c calls _ (start_booth_imp c D w h files)
    (Or.inl (start_fields c D w h files).2.2.2.1)
  have hz : (exec c (start c D w h files) calls).shouldDisplayPhotoBooth = false →
      (exec c (start c D w h files) calls).numTakenPhotosInBooth = 0 := by
    intro hb
    rcases hinv with h0 | h1
    · exact h0
    · rw [hb] at h1; exact absurd h1 (by decide)
  refine ⟨?_, draw_booth c e _, ?_, ?_⟩
  · intro hne
    rcases hinv with h0 | h1
    · exact absurd h0 hne
    · exact h1
  · intro hb hp
    rw [draw_not_booth_eq c e _ hb (hz hb), if_pos hp]
  · intro hb hp
    rw [draw_not_booth_eq c e _ hb (hz hb), if_neg (by simp [hp])]

theorem draw_selects_one_visual_witness :
    (exec shipped (start shipped 60 1440 900 []) boothCalls).numTakenPhotosInBooth ≠ 0 ∧
    (exec shipped (start shipped 60 1440 900 []) boothCalls).shouldDisplayPhotoBooth = true :=
  ⟨by decide!,
   (draw_selects_one_visual shipped 60 1440 900 [] boothCalls (at60 53)).1 (by decide!)⟩

theorem update_outside (c : Config) (e : Env) (s : State)
    (hp : s.shouldDisplayPhotos = false)
    (hout : getTime e ≤ s.displaySecretPhotosTime ∨ getTime e ≥ s.photoBoothStartTime) :
    update c e s =
      if getTime e - s.lastPhotoTime > c.secondsBetweenSecretPhotosTaken
      then { s with lastPhotoTime := getTime e, shouldTakePhoto := true } else s := by
  refine update_cases c e s (fun u => u =
      if getTime e - s.lastPhotoTime > c.secondsBetweenSecretPhotosTaken
      then { s with lastPhotoTime := getTime e, shouldTakePhoto := true } else s)
    ?_ ?_ ?_ ?_ ?_ ?_ ?_
  · intro h; rw [hp] at h; exact absurd h (by decide)
  · intro h; rw [hp] at h; exact absurd h (by decide)
  · intro h; rw [hp] at h; exact absurd h (by decide)
  · intro h; rw [hp] at h; exact absurd h (by decide)
  · intro _ h1 h2
    rcases hout with h | h
    · exact absurd h1 (not_lt.mpr h)
    · exact absurd h2 (not_lt.mpr h)
  · intro _ _ h; rw [if_pos h]
  · intro _ _ h; rw [if_neg h]

theorem savePending_boundaries (e : Env) (s : State) :
    (savePending e s).displaySecretPhotosTime = s.displaySecretPhotosTime ∧
    (savePending e s).photoBoothStartTime = s.photoBoothStartTime := by
  unfold savePending
  by_cases h : s.shouldTakePhoto = true
  · rw [if_pos h]; exact ⟨rfl, rfl⟩
  · rw [if_neg h]; exact ⟨rfl, rfl⟩

theorem step_outside (c : Config) (s : State) (call : Call) (lo hi : ℚ)
    (hp : s.shouldDisplayPhotos = false) (hb : s.shouldDisplayPhotoBooth = false)
    (hn : s.numTakenPhotosInBooth = 0)
    (hlo : s.displaySecretPhotosTime = lo) (hhi : s.photoBoothStartTime = hi)
    (hout : outsideWindow lo hi call = true) :
    (step c s call).shouldDisplayPhotos = false ∧
    (step c s call).shouldDisplayPhotoBooth = false ∧
    (step c s call).numTakenPhotosInBooth = 0 ∧
    (step c s call).displaySecretPhotosTime = lo ∧
    (step c s call).photoBoothStartTime = hi := by
  cases call with
  | update e =>
    have ho : getTime e ≤ s.displaySecretPhotosTime ∨ getTime e ≥ s.photoBoothStartTime := by
      rw [hlo, hhi]; simpa [outsideWindow] using hout
    simp only [step]
    rw [update_outside c e s hp ho]
    by_cases h : getTime e - s.lastPhotoTime > c.secondsBetweenSecretPhotosTaken
    · rw [if_pos h]; exact ⟨hp, hb, hn, hlo, hhi⟩
    · rw [if_neg h]; exact ⟨hp, hb, hn, hlo, hhi⟩
  | draw e =>
    obtain ⟨_, p2, p3, p4, _⟩ := savePending_fields e s
    obtain ⟨b1, b2⟩ := savePending_boundaries e s
    simp only [step]
    rw [draw_not_booth_eq c e s hb hn, if_neg (by simp [hp])]
    exact ⟨p2.trans hp, p3.trans hb, p4.trans hn, b1.trans hlo, b2.trans hhi⟩

theorem exec_outside (c : Config) (lo hi : ℚ) (calls : List Call) : ∀ s : State,
    s.shouldDisplayPhotos = false → s.shouldDisplayPhotoBooth = false →
    s.numTakenPhotosInBooth = 0 →
    s.displaySecretPhotosTime = lo → s.photoBoothStartTime = hi →
    (∀ call ∈ calls, outsideWindow lo hi call = true) →
    (exec c s calls).shouldDisplayPhotos = false ∧
    (exec c s calls).shouldDisplayPhotoBooth = false ∧
    (exec c s calls).numTakenPhotosInBooth = 0 ∧
    (exec c s calls).displaySecretPhotosTime = lo ∧
    (exec c s calls).photoBoothStartTime = hi := by
  induction calls with
  | nil => intro s hp hb hn hlo hhi _; exact ⟨hp, hb, hn, hlo, hhi⟩
  | cons call calls ih =>
    intro s hp hb hn hlo hhi hout
    obtain ⟨q1, q2, q3, q4, q5⟩ := step_outside c s call lo hi hp hb hn hlo hhi
      (hout call (List.mem_cons_self _ _))
    exact ih _ q1 q2 q3 q4 q5 (fun x hx => hout x (List.mem_cons_of_mem _ hx))

/-- C15: when no `update` sample of a sequence of calls lies strictly inside the window
`(displaySecretPhotosTime, photoBoothStartTime)` fixed at start, the machine stays in
Playback: both phase flags stay false and the booth counter stays 0; and a further
`update` outside the window still requests a secret capture whenever the interval has
passed, which the next `draw` writes under the current counter. -/
theorem no_slideshow_outside_window (c : Config) (D : ℚ) (w h : Int)
    (files : List (String × Pixels)) (calls : List Call)
    (hout : ∀ call ∈ calls,
      outsideWindow (start c D w h files).displaySecretPhotosTime
        (start c D w h files).photoBoothStartTime call = true) :
    (exec c (start c D w h files) calls).shouldDisplayPhotos = false ∧
    (exec c (start c D w h files) calls).shouldDisplayPhotoBooth = false ∧
    (exec c (start c D w h files) calls).numTakenPhotosInBooth = 0 ∧
    (∀ e e' : Env,
      outsideWindow (start c D w h files).displaySecretPhotosTime
        (start c D w h files).photoBoothStartTime (Call.update e) = true →
      getTime e - (exec c (start c D w h files) calls).lastPhotoTime >
        c.secondsBetweenSecretPhotosTaken →
      (update c e (exec c (start c D w h files) calls)).shouldTakePhoto = true ∧
      (update c e (exec c (start c D w h files) calls)).shouldDisplayPhotos = false ∧
      savedPaths (draw c e' (update c e (exec c (start c D w h files) calls))).log =
        savedPaths (exec c (start c D w h files) calls).log ++
          [photoPath (exec c (start c D w h files) calls).photoNumber]) := by
  obtain ⟨s1, s2, _, s4, _⟩ := start_fields c D w h files
  obtain ⟨q1, q2, q3, q4, q5⟩ := exec_outside c _ _ calls _ s1 s2 s4 rfl rfl hout
  refine ⟨q1, q2, q3, ?_⟩
  intro e e' ho hgt
  have ho' : getTime e ≤ (exec c (start c D w h files) calls).displaySecretPhotosTime ∨
      getTime e ≥ (exec c (start c D w h files) calls).photoBoothStartTime := by
    rw [q4, q5]; simpa [outsideWindow] using ho
  rw [update_outside c e _ q1 ho', if_pos hgt]
  refine ⟨rfl, q1, ?_⟩
  have := (draw_not_booth c e'
    { exec c (start c D w h files) calls with
      lastPhotoTime := getTime e, shouldTakePhoto := true } q2).2.2.2.2.2
  rw [this, if_pos rfl]

theorem no_slideshow_outside_window_witness :
    (∀ call ∈ jumpingCalls,
      outsideWindow (start shipped 60 1440 900 []).displaySecretPhotosTime
        (start shipped 60 1440 900 []).photoBoothStartTime call = true) ∧
    (exec shipped (start shipped 60 1440 900 []) jumpingCalls).shouldDisplayPhotos = false ∧
    savedPaths (exec shipped (start shipped 60 1440 900 []) jumpingCalls).log =
      ["output/photo000.jpg", "output/photo001.jpg", "output/photo002.jpg",
       "output/photo003.jpg", "output/photo004.jpg"] :=
  ⟨by decide!,
   (no_slideshow_outside_window shipped 60 1440 900 [] jumpingCalls (by decide!)).1,
   by decide!⟩

/-! ## The warm-up of the photobooth (C13) -/

theorem takePhotoTimes_append (c : Config) (l₁ l₂ : List Call) : ∀ s : State,
    takePhotoTimes c s (l₁ ++ l₂) =
      takePhotoTimes c s l₁ ++ takePhotoTimes c (exec c s l₁) l₂ := by
  induction l₁ with
  | nil => intro s; rfl
  | cons call l₁ ih =>
    intro s
    have e1 : exec c s (call :: l₁) = exec c (step c s call) l₁ := rfl
    simp only [List.cons_append, takePhotoTimes, e1]
    split_ifs
    · exact congrArg (List.cons call.time) (ih (step c s call))
    · exact ih (step c s call)

theorem takePhotoTimes_nil_of_not_booth (c : Config) (calls : List Call) : ∀ s : State,
    (s.shouldDisplayPhotoBooth = true → s.shouldDisplayPhotos = true) →
    (exec c s calls).shouldDisplayPhotoBooth = false →
    takePhotoTimes c s calls = [] := by
  induction calls with
  | nil => intro s _ _; rfl
  | cons call calls ih =>
    intro s hi hb
    obtain ⟨f1, _, f3⟩ := step_stepFacts c s call hi
    unfold takePhotoTimes
    rcases f3 with ⟨_, g2, _⟩ | ⟨_, _, _, g4, _⟩
    · rw [if_neg (by omega)]
      exact ih _ f1 hb
    · have := exec_booth_mono c calls _ f1 g4
      have hb' : (exec c (step c s call) calls).shouldDisplayPhotoBooth = false := hb
      rw [this] at hb'
      exact absurd hb' (by decide)

theorem step_boothStart_of_not_booth (c : Config) (s : State) (call : Call)
    (hb : (step c s call).shouldDisplayPhotoBooth = false) :
    (step c s call).photoBoothStartTime = s.photoBoothStartTime := by
  cases call with
  | update e =>
    simp only [step] at hb ⊢
    revert hb
    refine update_cases c e s (fun s' => s'.shouldDisplayPhotoBooth = false →
      s'.photoBoothStartTime = s.photoBoothStartTime) ?_ ?_ ?_ ?_ ?_ ?_ ?_ <;>
      intros <;> simp_all
  | draw e =>
    obtain ⟨p1, _, _, _, _, _, p7, _⟩ := savePending_fields e s
    simp only [step]
    rw [draw_savePending, ← p7]
    refine draw_cases c e (savePending e s) (fun s' =>
      s'.photoBoothStartTime = (savePending e s).photoBoothStartTime) p1
      ?_ ?_ ?_ ?_ ?_ ?_ ?_ ?_ <;> intros <;> rfl

theorem exec_boothStart_of_not_booth (c : Config) (calls : List Call) : ∀ s : State,
    (s.shouldDisplayPhotoBooth = true → s.shouldDisplayPhotos = true) →
    (exec c s calls).shouldDisplayPhotoBooth = false →
    (exec c s calls).photoBoothStartTime = s.photoBoothStartTime := by
  induction calls with
  | nil => intro s _ _; rfl
  | cons call calls ih =>
    intro s hi hb
    obtain ⟨f1, _, _⟩ := step_stepFacts c s call hi
    have h1 : (step c s call).shouldDisplayPhotoBooth = false := by
      cases hs : (step c s call).shouldDisplayPhotoBooth
      · rfl
      · have := exec_booth_mono c calls _ f1 hs
        have hb' : (exec c (step c s call) calls).shouldDisplayPhotoBooth = false := hb
        rw [this] at hb'
        exact absurd hb' (by decide)
    have h2 := ih (step c s call) f1 hb
    exact h2.trans (step_boothStart_of_not_booth c s call h1)

/-- In the photobooth `photoBoothStartTime` is fixed, and `takePhoto` runs only after the
warm-up, counted from it, has passed. -/
theorem step_in_booth (c : Config) (s : State) (call : Call)
    (hb : s.shouldDisplayPhotoBooth = true) (hp : s.shouldDisplayPhotos = true) :
    (step c s call).photoBoothStartTime = s.photoBoothStartTime ∧
    (soundCount (step c s call).log > soundCount s.log →
      call.time - s.photoBoothStartTime >
        c.secondsBetweenSecretPhotosAndFirstPhotoBoothPhoto) := by
  cases call with
  | update e =>
    simp only [step, Call.time]
    refine update_cases c e s (fun s' => s'.photoBoothStartTime = s.photoBoothStartTime ∧
      (soundCount s'.log > soundCount s.log → getTime e - s.photoBoothStartTime >
        c.secondsBetweenSecretPhotosAndFirstPhotoBoothPhoto)) ?_ ?_ ?_ ?_ ?_ ?_ ?_ <;>
      intros <;> simp_all
  | draw e =>
    obtain ⟨p1, _, p3, _, _, _, p7, p8⟩ := savePending_fields e s
    simp only [step, Call.time]
    rw [draw_savePending, ← p7, ← p8]
    refine draw_cases c e (savePending e s) (fun s' =>
      s'.photoBoothStartTime = (savePending e s).photoBoothStartTime ∧
      (soundCount s'.log > soundCount (savePending e s).log →
        getTime e - (savePending e s).photoBoothStartTime >
          c.secondsBetweenSecretPhotosAndFirstPhotoBoothPhoto)) p1
      ?_ ?_ ?_ ?_ ?_ ?_ ?_ ?_ <;> intros <;> simp_all [soundCount]

theorem takePhotoTimes_after_warmup (c : Config) (calls : List Call) : ∀ s : State,
    s.shouldDisplayPhotoBooth = true → s.shouldDisplayPhotos = true →
    ∀ t ∈ takePhotoTimes c s calls,
      t - s.photoBoothStartTime > c.secondsBetweenSecretPhotosAndFirstPhotoBoothPhoto := by
  induction calls with
  | nil => intro s _ _ t ht; simp [takePhotoTimes] at ht
  | cons call calls ih =>
    intro s hb hp t ht
    obtain ⟨f1, f2, _⟩ := step_stepFacts c s call (fun _ => hp)
    obtain ⟨q1, q2⟩ := step_in_booth c s call hb hp
    have hrest := ih (step c s call) (f2 hb) (f1 (f2 hb))
    rw [q1] at hrest
    unfold takePhotoTimes at ht
    split_ifs at ht with hs
    · rcases List.mem_cons.mp ht with h | h
      · rw [h]; exact q2 hs
      · exact hrest t h
    · exact hrest t ht

theorem chain_lower_bound (b d : ℚ) : ∀ (l : List ℚ),
    List.Chain' (fun x y => y - x > d) l → (∀ t ∈ l, b < t) →
    ∀ (k : Nat) (hk : k < l.length), b + (k : ℚ) * d < l.get ⟨k, hk⟩ := by
  intro l hc hall k
  induction k with
  | zero => intro hk; simpa using hall _ (List.get_mem l 0 hk)
  | succ k ih =>
    intro hk
    have h1 := ih (by omega)
    have h2 := List.chain'_iff_get.mp hc k (by omega)
    simp only [List.get_eq_getElem] at h1 h2 ⊢
    push_cast
    linarith

/-- C13: when `update` moves from the slideshow to the photobooth at a sample `t0` after
`photoBoothStartTime`, it sets `photoBoothStartTime` to `t0`; no booth photo was taken
before, every later `takePhoto` runs at a sample more than the warm-up after `t0`, and the
booth photo with (zero-based) position `k` is taken strictly after the boundary computed
at start plus the warm-up plus `k` times `secondsBetweenPhotoBoothPhotos`. -/
theorem booth_warmup (c : Config) (D : ℚ) (w h : Int) (files : List (String × Pixels))
    (pre : List Call) (e : Env) (post : List Call)
    (hp : (exec c (start c D w h files) pre).shouldDisplayPhotos = true)
    (hb : (exec c (start c D w h files) pre).shouldDisplayPhotoBooth = false)
    (ht : getTime e > (exec c (start c D w h files) pre).photoBoothStartTime) :
    (exec c (start c D w h files) pre).photoBoothStartTime =
      (start c D w h files).photoBoothStartTime ∧
    (update c e (exec c (start c D w h files) pre)).photoBoothStartTime = getTime e ∧
    (update c e (exec c (start c D w h files) pre)).shouldDisplayPhotoBooth = true ∧
    takePhotoTimes c (start c D w h files) (pre ++ Call.update e :: post) =
      takePhotoTimes c (update c e (exec c (start c D w h files) pre)) post ∧
    (∀ t ∈ takePhotoTimes c (update c e (exec c (start c D w h files) pre)) post,
      t - getTime e > c.secondsBetweenSecretPhotosAndFirstPhotoBoothPhoto) ∧
    (∀ (k : Nat)
      (hk : k < (takePhotoTimes c (update c e (exec c (start c D w h files) pre)) post).length),
      (start c D w h files).photoBoothStartTime
          + c.secondsBetweenSecretPhotosAndFirstPhotoBoothPhoto
          + (k : ℚ) * c.secondsBetweenPhotoBoothPhotos <
        (takePhotoTimes c (update c e (exec c (start c D w h files) pre)) post).get ⟨k, hk⟩) := by
  have hstart := start_booth_imp c D w h files
  have hpre := exec_booth_imp c pre _ hstart
  have e0 := exec_boothStart_of_not_booth c pre _ hstart hb
  have hupd : update c e (exec c (start c D w h files) pre) =
      { exec c (start c D w h files) pre with
        shouldDisplayPhotoBooth := true
        photoNumber := (exec c (start c D w h files) pre).totalNumberOfPhotos
        photoBoothStartTime := getTime e } := by
    refine update_cases c e _ (fun u => u =
      { exec c (start c D w h files) pre with
        shouldDisplayPhotoBooth := true
        photoNumber := (exec c (start c D w h files) pre).totalNumberOfPhotos
        photoBoothStartTime := getTime e }) ?_ ?_ ?_ ?_ ?_ ?_ ?_
    · intro _ h; rw [hb] at h; exact absurd h (by decide)
    · intro _ _ _; rfl
    · intro _ _ h; exact absurd ht h
    · intro _ _ h; exact absurd ht h
    · intro h; rw [hp] at h; exact absurd h (by decide)
    · intro h; rw [hp] at h; exact absurd h (by decide)
    · intro h; rw [hp] at h; exact absurd h (by decide)
  have u1 : (update c e (exec c (start c D w h files) pre)).photoBoothStartTime = getTime e := by
    rw [hupd]
  have u2 : (update c e (exec c (start c D w h files) pre)).shouldDisplayPhotoBooth = true := by
    rw [hupd]
  have u3 : (update c e (exec c (start c D w h files) pre)).shouldDisplayPhotos = true := by
    rw [hupd]; exact hp
  have hsnd : soundCount (update c e (exec c (start c D w h files) pre)).log =
      soundCount (exec c (start c D w h files) pre).log := by rw [hupd]
  have hwarm := takePhotoTimes_after_warmup c post _ u2 u3
  rw [u1] at hwarm
  have hchain := takePhotoTimes_chain_start c post
    (update c e (exec c (start c D w h files) pre)) (fun _ => u3)
  refine ⟨e0, u1, u2, ?_, hwarm, ?_⟩
  · rw [takePhotoTimes_append, takePhotoTimes_nil_of_not_booth c pre _ hstart hb,
      List.nil_append]
    simp only [takePhotoTimes, step, hsnd, gt_iff_lt, lt_self_iff_false, if_false]
  · intro k hk
    have hall : ∀ t ∈ takePhotoTimes c (update c e (exec c (start c D w h files) pre)) post,
        (start c D w h files).photoBoothStartTime
          + c.secondsBetweenSecretPhotosAndFirstPhotoBoothPhoto < t := by
      intro t htm
      have := hwarm t htm
      rw [e0] at ht
      linarith
    exact chain_lower_bound _ _ _ hchain hall k hk

theorem booth_warmup_witness :
    (exec shipped (start shipped 60 1440 900 []) (callsAt 36)).shouldDisplayPhotos = true ∧
    takePhotoTimes shipped
      (update shipped (at60 46) (exec shipped (start shipped 60 1440 900 []) (callsAt 36)))
      (Call.draw (at60 46) :: (callsAt 52 ++ callsAt 55)) = [52, 55] ∧
    (∀ t ∈ takePhotoTimes shipped
        (update shipped (at60 46) (exec shipped (start shipped 60 1440 900 []) (callsAt 36)))
        (Call.draw (at60 46) :: (callsAt 52 ++ callsAt 55)),
      t - getTime (at60 46) > shipped.secondsBetweenSecretPhotosAndFirstPhotoBoothPhoto) :=
  ⟨by decide!, by decide!,
   (booth_warmup shipped 60 1440 900 [] (callsAt 36) (at60 46)
      (Call.draw (at60 46) :: (callsAt 52 ++ callsAt 55))
      (by decide!) (by decide!) (by decide!)).2.2.2.2.1⟩

/-! ## Loads during the slideshow (C16) -/

theorem run_eq_exec (c : Config) (fs : List (Env × Env)) : ∀ s : State,
    run c s fs = exec c s (frameCalls fs) := by
  induction fs with
  | nil => intro s; rfl
  | cons f fs ih => intro s; exact ih (frame c s f)

theorem run_append (c : Config) (s : State) (l₁ l₂ : List (Env × Env)) :
    run c s (l₁ ++ l₂) = run c (run c s l₁) l₂ := by
  simp [run, List.foldl_append]

theorem step_boundary (c : Config) (s : State) (call : Call) :
    (step c s call).displaySecretPhotosTime = s.displaySecretPhotosTime := by
  cases call with
  | update e =>
    simp only [step]
    refine update_cases c e s (fun s' => s'.displaySecretPhotosTime =
      s.displaySecretPhotosTime) ?_ ?_ ?_ ?_ ?_ ?_ ?_ <;> intros <;> rfl
  | draw e =>
    obtain ⟨p1, _⟩ := savePending_fields e s
    obtain ⟨b1, _⟩ := savePending_boundaries e s
    simp only [step]
    rw [draw_savePending, ← b1]
    refine draw_cases c e (savePending e s) (fun s' => s'.displaySecretPhotosTime =
      (savePending e s).displaySecretPhotosTime) p1 ?_ ?_ ?_ ?_ ?_ ?_ ?_ ?_ <;> intros <;> rfl

theorem exec_boundary (c : Config) (calls : List Call) : ∀ s : State,
    (exec c s calls).displaySecretPhotosTime = s.displaySecretPhotosTime := by
  induction calls with
  | nil => intro s; rfl
  | cons call calls ih => intro s; exact (ih _).trans (step_boundary c s call)

theorem savePending_loads (e : Env) (s : State) :
    loadedPaths (savePending e s).log = loadedPaths s.log := by
  unfold savePending
  by_cases h : s.shouldTakePhoto = true
  · rw [if_pos h]; simp [loadedPaths]
  · rw [if_neg h]

theorem draw_loads (c : Config) (e : Env) (s : State) :
    loadedPaths (draw c e s).log = loadedPaths s.log := by
  obtain ⟨p1, _⟩ := savePending_fields e s
  rw [draw_savePending, ← savePending_loads e s]
  refine draw_cases c e (savePending e s) (fun s' => loadedPaths s'.log =
    loadedPaths (savePending e s).log) p1 ?_ ?_ ?_ ?_ ?_ ?_ ?_ ?_ <;> intros <;>
    simp [loadedPaths]

theorem step_loads_of_not_photos (c : Config) (s : State) (call : Call)
    (hp : (step c s call).shouldDisplayPhotos = false) :
    loadedPaths (step c s call).log = loadedPaths s.log := by
  cases call with
  | update e =>
    simp only [step] at hp ⊢
    revert hp
    refine update_cases c e s (fun s' => s'.shouldDisplayPhotos = false →
      loadedPaths s'.log = loadedPaths s.log) ?_ ?_ ?_ ?_ ?_ ?_ ?_ <;> intros <;> simp_all
  | draw e => exact draw_loads c e s

theorem exec_loads_of_not_photos (c : Config) (calls : List Call) : ∀ s : State,
    (exec c s calls).shouldDisplayPhotos = false →
    loadedPaths (exec c s calls).log = loadedPaths s.log := by
  induction calls with
  | nil => intro s _; rfl
  | cons call calls ih =>
    intro s hp
    have h1 : (step c s call).shouldDisplayPhotos = false := by
      cases hs : (step c s call).shouldDisplayPhotos
      · rfl
      · have := exec_photos_mono c calls _ hs
        have hp' : (exec c (step c s call) calls).shouldDisplayPhotos = false := hp
        rw [this] at hp'
        exact absurd hp' (by decide)
    exact (ih (step c s call) hp).trans (step_loads_of_not_photos c s call h1)

theorem draw_slideInv (c : Config) (P : ℚ) (N : Int) (e : Env) (s : State)
    (h : SlideInv c P N s) : SlideInv c P N (draw c e s) := by
  obtain ⟨h1, h2, h3, h0, h4, h5⟩ := h
  refine draw_cases c e s (SlideInv c P N) h1 ?_ ?_ ?_ ?_ ?_ ?_ ?_ ?_ <;> intros <;>
    simp_all [SlideInv, loadedPaths]

theorem update_slideInv (c : Config) (hS : 0 < c.secondsToShowSecretPhotos) (P : ℚ) (N : Int)
    (hN : 0 ≤ N) (e : Env) (s : State) (h : SlideInv c P N s) :
    SlideInv c P N (update c e s) := by
  obtain ⟨h1, h2, h3, h0, h4, h5⟩ := h
  refine update_cases c e s (SlideInv c P N) ?_ ?_ ?_ ?_ ?_ ?_ ?_
  · intro _ _; exact ⟨h1, h2, h3, h0, h4, h5⟩
  · intro _ _ _
    exact ⟨h1, h2, h3, h0, h4, fun hb => Bool.noConfusion hb⟩
  · intro _ hb ht hn
    obtain ⟨g1, g2, g3, g4, g5⟩ := h5 hb
    have hN1 : (0 : ℚ) < ((N + 1 : Int) : ℚ) := by exact_mod_cast (by omega : 0 < N + 1)
    have hdt : 0 < c.secondsToShowSecretPhotos / ((N + 1 : Int) : ℚ) := div_pos hS hN1
    have hmul : ((N + 1 : Int) : ℚ) * (c.secondsToShowSecretPhotos / ((N + 1 : Int) : ℚ)) =
        c.secondsToShowSecretPhotos := by field_simp
    rw [g2] at ht
    rw [g3] at hn
    have htP : getTime e ≤ P := not_lt.mp ht
    have hlt : ((loadedPaths s.log).length : ℚ) < ((N + 1 : Int) : ℚ) := by
      by_contra hcon
      have hge : ((N + 1 : Int) : ℚ) ≤ ((loadedPaths s.log).length : ℚ) := not_lt.mp hcon
      have := mul_le_mul_of_nonneg_right hge hdt.le
      nlinarith
    have hlt' : ((loadedPaths s.log).length : Int) < N + 1 := by exact_mod_cast hlt
    refine ⟨h1, h2, ?_, ?_, ?_, fun _ => ⟨?_, g2, g3, ?_, htP⟩⟩
    · simp only [loadedPaths_append, loadedPaths, g1]
      exact Sequential.snoc h3
    · simp only [loadedPaths_append, loadedPaths, List.length_append, List.length_singleton]
      omega
    · simp only [loadedPaths_append, loadedPaths, List.length_append, List.length_singleton]
      push_cast; omega
    · simp only [loadedPaths_append, loadedPaths, List.length_append, List.length_singleton, g1]
      push_cast; rfl
    · simp only [loadedPaths_append, loadedPaths, List.length_append, List.length_singleton,
        Nat.cast_add, Nat.cast_one]
      linarith
  · intro _ _ _ _; exact ⟨h1, h2, h3, h0, h4, h5⟩
  · intro hp; rw [h2] at hp; exact absurd hp (by decide)
  · intro hp; rw [h2] at hp; exact absurd hp (by decide)
  · intro hp; rw [h2] at hp; exact absurd hp (by decide)

theorem run_slideInv (c : Config) (hS : 0 < c.secondsToShowSecretPhotos) (P : ℚ) (N : Int)
    (hN : 0 ≤ N) (fs : List (Env × Env)) : ∀ s : State,
    SlideInv c P N s → SlideInv c P N (run c s fs) := by
  induction fs with
  | nil => intro s h; exact h
  | cons f fs ih =>
    intro s h
    exact ih _ (draw_slideInv c P N f.2 _ (update_slideInv c hS P N hN f.1 s h))

theorem frame_enter_slideInv (c : Config) (P : ℚ) (s : State) (f : Env × Env)
    (hinv : FrameInv s) (hp : s.shouldDisplayPhotos = false) (hl : loadedPaths s.log = [])
    (hP : s.photoBoothStartTime = P)
    (hlo : s.displaySecretPhotosTime = P - c.secondsToShowSecretPhotos)
    (hent : (frame c s f).shouldDisplayPhotos = true) :
    SlideInv c P (writeCount s : Int) (frame c s f) := by
  obtain ⟨i1, _, i3, i4⟩ := hinv
  have hb : s.shouldDisplayPhotoBooth = false := by
    cases hbb : s.shouldDisplayPhotoBooth
    · rfl
    · rw [i3 hbb] at hp; exact absurd hp (by decide)
  have hnum : s.photoNumber = (writeCount s : Int) := by
    rw [← i4, if_neg (by simp [hp])]
  by_cases hwin : getTime f.1 > s.displaySecretPhotosTime ∧ getTime f.1 < s.photoBoothStartTime
  · have hupd : update c f.1 s =
        { s with
          shouldDisplayPhotos := true
          numberOfPhotos := s.photoNumber + 1
          displayTimePerSecretPhoto :=
            (1 * c.secondsToShowSecretPhotos) / ((s.photoNumber + 1 : Int) : ℚ)
          totalNumberOfPhotos := s.photoNumber
          photoNumber := 0 + 1
          currentPhoto := (s.files.lookup (photoPath 0)).getD s.currentPhoto
          currentImage := (s.files.lookup (photoPath 0)).getD s.currentPhoto
          lastPhotoTime := getTime f.1
          log := s.log ++ [Event.loadImage (photoPath 0)] } := by
      refine update_cases c f.1 s (fun u => u =
        { s with
          shouldDisplayPhotos := true
          numberOfPhotos := s.photoNumber + 1
          displayTimePerSecretPhoto :=
            (1 * c.secondsToShowSecretPhotos) / ((s.photoNumber + 1 : Int) : ℚ)
          totalNumberOfPhotos := s.photoNumber
          photoNumber := 0 + 1
          currentPhoto := (s.files.lookup (photoPath 0)).getD s.currentPhoto
          currentImage := (s.files.lookup (photoPath 0)).getD s.currentPhoto
          lastPhotoTime := getTime f.1
          log := s.log ++ [Event.loadImage (photoPath 0)] }) ?_ ?_ ?_ ?_ ?_ ?_ ?_
      · intro h; rw [hp] at h; exact absurd h (by decide)
      · intro h; rw [hp] at h; exact absurd h (by decide)
      · intro h; rw [hp] at h; exact absurd h (by decide)
      · intro h; rw [hp] at h; exact absurd h (by decide)
      · intro _ _ _; rfl
      · intro _ h _; exact absurd hwin h
      · intro _ h _; exact absurd hwin h
    unfold frame
    rw [hupd]
    apply draw_slideInv
    rw [hlo, hP] at hwin
    have hw0 : (0 : Int) ≤ (writeCount s : Int) := Int.natCast_nonneg _
    refine ⟨i1, rfl, ?_, ?_, ?_, fun _ => ⟨?_, hP, ?_, ?_, ?_⟩⟩
    · simp only [loadedPaths_append, hl, loadedPaths, List.nil_append]
      rfl
    · simp only [loadedPaths_append, hl, loadedPaths, List.nil_append, List.length_singleton,
        le_refl]
    · simp only [loadedPaths_append, hl, loadedPaths, List.nil_append, List.length_singleton]
      push_cast; omega
    · simp only [loadedPaths_append, hl, loadedPaths, List.nil_append, List.length_singleton]
      rfl
    · simp only [hnum, one_mul]
    · simp only [loadedPaths_append, hl, loadedPaths, List.nil_append, List.length_singleton,
        Nat.cast_one, sub_self, zero_mul, add_zero]
      exact hwin.1
    · exact hwin.2.le
  · exfalso
    have ho : getTime f.1 ≤ s.displaySecretPhotosTime ∨ getTime f.1 ≥ s.photoBoothStartTime := by
      by_contra hcon
      push_neg at hcon
      exact hwin ⟨hcon.1, hcon.2⟩
    unfold frame at hent
    rw [update_outside c f.1 s hp ho] at hent
    by_cases hc : getTime f.1 - s.lastPhotoTime > c.secondsBetweenSecretPhotosTaken
    · rw [if_pos hc] at hent
      have := (draw_not_booth c f.2
        { s with lastPhotoTime := getTime f.1, shouldTakePhoto := true } hb).1
      rw [this] at hent
      rw [hp] at hent
      exact absurd hent (by decide)
    · rw [if_neg hc] at hent
      rw [(draw_not_booth c f.2 s hb).1, hp] at hent
      exact absurd hent (by decide)

/-- C16: with a positive slideshow duration and the boundaries computed at start, in every
run of frames that enters the slideshow at a frame `f` after `N` frames were written
during Playback, the images loaded up to any later point are those of the indices
0, 1, 2, ... in order, at least one and at most `N + 1` of them: the entry load and at
most `N` advances, so no index above `N` is read. -/
theorem slideshow_loads_bounded (c : Config) (hS : 0 < c.secondsToShowSecretPhotos)
    (D : ℚ) (w h : Int) (files : List (String × Pixels))
    (pre : List (Env × Env)) (f : Env × Env) (post : List (Env × Env))
    (hpre : (run c (start c D w h files) pre).shouldDisplayPhotos = false)
    (hent : (frame c (run c (start c D w h files) pre) f).shouldDisplayPhotos = true) :
    loadedPaths (run c (start c D w h files) (pre ++ f :: post)).log =
      (List.range (loadedPaths (run c (start c D w h files) (pre ++ f :: post)).log).length).map
        (fun i : Nat => photoPath (i : Int)) ∧
    1 ≤ (loadedPaths (run c (start c D w h files) (pre ++ f :: post)).log).length ∧
    (loadedPaths (run c (start c D w h files) (pre ++ f :: post)).log).length ≤
      writeCount (run c (start c D w h files) pre) + 1 := by
  obtain ⟨s1, s2, _, _, _, _, _, s8⟩ := start_fields c D w h files
  have hstart := start_booth_imp c D w h files
  have hinv := run_frameInv c pre _ (start_frameInv c D w h files)
  have hpre' : (exec c (start c D w h files) (frameCalls pre)).shouldDisplayPhotos = false := by
    rw [← run_eq_exec]; exact hpre
  have hl : loadedPaths (run c (start c D w h files) pre).log = [] := by
    rw [run_eq_exec, exec_loads_of_not_photos c _ _ hpre', s8]; rfl
  have hb : (exec c (start c D w h files) (frameCalls pre)).shouldDisplayPhotoBooth = false := by
    cases hbb : (exec c (start c D w h files) (frameCalls pre)).shouldDisplayPhotoBooth
    · rfl
    · rw [exec_booth_imp c _ _ hstart hbb] at hpre'; exact absurd hpre' (by decide)
  have hP : (run c (start c D w h files) pre).photoBoothStartTime =
      (start c D w h files).photoBoothStartTime := by
    rw [run_eq_exec]; exact exec_boothStart_of_not_booth c _ _ hstart hb
  have hlo : (run c (start c D w h files) pre).displaySecretPhotosTime =
      (start c D w h files).photoBoothStartTime - c.secondsToShowSecretPhotos := by
    rw [run_eq_exec, exec_boundary]
    obtain ⟨x, y, vw, vh, e⟩ := start_eq c D w h files
    rw [e]
  have hent' := frame_enter_slideInv c _ _ f hinv hpre hl hP hlo hent
  have hrun := run_slideInv c hS _ _ (Int.natCast_nonneg _) post _ hent'
  have e1 : run c (start c D w h files) (pre ++ f :: post) =
      run c (frame c (run c (start c D w h files) pre) f) post := by
    rw [run_append]; rfl
  rw [e1]
  obtain ⟨_, _, r3, r0, r4, _⟩ := hrun
  exact ⟨r3, r0, by exact_mod_cast r4⟩

theorem slideshow_loads_bounded_witness :
    0 < shipped.secondsToShowSecretPhotos ∧
    writeCount (run shipped (start shipped 60 1440 900 []) playbackFrames) = 4 ∧
    loadedPaths (run shipped (start shipped 60 1440 900 [])
      (playbackFrames ++ frameAt (71 / 2) ::
        [frameAt (376 / 10), frameAt (397 / 10), frameAt (418 / 10), frameAt (439 / 10),
         frameAt 46])).log =
      ["output/photo000.jpg", "output/photo001.jpg", "output/photo002.jpg",
       "output/photo003.jpg", "output/photo004.jpg"] ∧
    (loadedPaths (run shipped (start shipped 60 1440 900 [])
      (playbackFrames ++ frameAt (71 / 2) ::
        [frameAt (376 / 10), frameAt (397 / 10), frameAt (418 / 10), frameAt (439 / 10),
         frameAt 46])).log).length ≤
      writeCount (run shipped (start shipped 60 1440 900 []) playbackFrames) + 1 :=
  ⟨by decide!, by decide!, by decide!,
   (slideshow_loads_bounded shipped (by decide!) 60 1440 900 [] playbackFrames
      (frameAt (71 / 2))
      [frameAt (376 / 10), frameAt (397 / 10), frameAt (418 / 10), frameAt (439 / 10),
       frameAt 46]
      (by decide!) (by decide!)).2.2⟩

end PhotoBooth
